import Mathlib

/-!
# Gateway API: verification of the request execution pipeline

A shallow embedding of the `timbuilt-DB/gateway-api` repository: the JSON
value model, HMAC signature verification (`src/lib/auth.ts`), the audit log
store (`src/lib/logs.ts`), the JobTread query linter (`src/lib/lint.ts`),
the webhook host allowlist (`src/lib/allowlist.ts`), the resilient HTTP
client (`src/lib/http.ts`), the action executors (`src/actions/*.ts`) and
the `POST /v1/actions/execute` handler (`src/server.ts`).

External collaborators (Node `crypto`, `undici`, `URL`, the system clock and
UUID generation) are passed in as explicit oracles, so every definition is an
executable function of its inputs.
-/

namespace Gateway

/-- JSON values as produced by `JSON.parse`. Numbers are modelled as integers,
which covers every numeric value the verified code paths inspect (page sizes,
durations). -/
inductive Json where
  | null : Json
  | bool (b : Bool) : Json
  | num (n : Int) : Json
  | str (s : String) : Json
  | arr (items : List Json) : Json
  | obj (fields : List (String × Json)) : Json
deriving Repr

/-- Property lookup `o[k]` on a parsed JSON value: first matching field of an
object, `none` for every other shape (JS `undefined`). -/
def getField (j : Json) (key : String) : Option Json :=
  match j with
  | .obj fields => (fields.find? (fun p => p.1 == key)).map (fun p => p.2)
  | _ => none

/-- `obj.hasOwnProperty(key)` on a parsed JSON object. -/
def hasKey (j : Json) (key : String) : Bool :=
  match j with
  | .obj fields => fields.any (fun p => p.1 == key)
  | _ => false

/-- `needle.isPrefixOf`-based substring test: `hay.includes(needle)` on the
underlying character lists. -/
def listContainsSub (hay needle : List Char) : Bool :=
  match hay with
  | [] => needle.isEmpty
  | _ :: t => needle.isPrefixOf hay || listContainsSub t needle

/-- JS `hay.includes(needle)`. -/
def strIncludes (hay needle : String) : Bool :=
  listContainsSub hay.toList needle.toList

/-- JS `<` on strings: lexicographic comparison by code unit. -/
def charListLt : List Char → List Char → Bool
  | _, [] => false
  | [], _ :: _ => true
  | a :: as, b :: bs =>
    if a.toNat < b.toNat then true
    else if b.toNat < a.toNat then false
    else charListLt as bs

/-- JS `a < b` on strings. -/
def strLt (a b : String) : Bool :=
  charListLt a.toList b.toList

/-- JS `a <= b` on strings (total with `strLt`). -/
def strLe (a b : String) : Bool :=
  !(strLt b a)

/-- JS `s.startsWith(p)`. -/
def strStartsWith (s p : String) : Bool :=
  p.toList.isPrefixOf s.toList

/-- JS `s.endsWith(p)`. -/
def strEndsWith (s p : String) : Bool :=
  p.toList.isSuffixOf s.toList

/-- JS `toLowerCase` on a character; ASCII lowercasing covers every key
name the sensitivity markers are compared against. -/
def toLowerChar (c : Char) : Char :=
  if 65 ≤ c.toNat ∧ c.toNat ≤ 90 then Char.ofNat (c.toNat + 32) else c

/-- JS `s.toLowerCase()`. -/
def strToLower (s : String) : String :=
  String.mk (s.toList.map toLowerChar)

/-- Splitting loop for `s.split(',')`; `cur` holds the current segment
reversed. -/
def splitCommaGo (cur : List Char) : List Char → List String
  | [] => [String.mk cur.reverse]
  | c :: rest =>
    if c = ',' then String.mk cur.reverse :: splitCommaGo [] rest
    else splitCommaGo (c :: cur) rest

/-- JS `s.split(',')`. -/
def splitOnComma (s : String) : List String :=
  splitCommaGo [] s.toList

/-- ASCII whitespace, as trimmed from host configuration entries. -/
def isWsChar (c : Char) : Bool :=
  c.toNat = 32 || c.toNat = 9 || c.toNat = 10 || c.toNat = 13 ||
  c.toNat = 11 || c.toNat = 12

/-- JS `s.trim()`. -/
def trimStr (s : String) : String :=
  String.mk (((s.toList.dropWhile isWsChar).reverse.dropWhile isWsChar).reverse)

/-- JS `arr.join(sep)`. -/
def joinSep (sep : String) : List String → String
  | [] => ""
  | [a] => a
  | a :: rest => a ++ sep ++ joinSep sep rest

end Gateway

namespace Gateway

/-! ## `src/lib/lint.ts` — business-rule linting of JobTread Pave queries -/

/-- Result of `lintJobTreadQuery`. -/
structure LintResult where
  valid : Bool
  notes : List String
  errors : List String
deriving Repr

/-- Error text pushed by rule 1 of `checkObject`. -/
def emailErrMsg (path : String) : String :=
  "contacts.nodes.email is not supported due to tenant schema limitations. " ++
  "Use contacts.edges.node.email instead. Found at: " ++ path ++ ".email"

/-- Error text pushed by rule 2 of `checkObject`. -/
def sizeErrMsg (path : String) (n : Int) : String :=
  "Page size limit exceeded: " ++ path ++ ".size = " ++ toString n ++ ". " ++
  "Maximum allowed is 100. Please use pagination for larger result sets."

/-- Note text pushed by rule 3 of `checkObject`. -/
def unitPriceNoteMsg (path : String) : String :=
  "unitPrice used at " ++ path ++ " without unitCost. " ++
  "Consider using unitCost as it is the authoritative source for pricing data."

/-- The three per-node lint rules of `checkObject` (errors, notes); they only
fire on JSON objects, since arrays own no `email`/`size`/`unitPrice`
properties and primitives are filtered out by the `typeof` guard. -/
def lintNodeRules (j : Json) (path : String) : List String × List String :=
  let e1 :=
    if strIncludes path "contacts.nodes" && hasKey j "email" then
      [emailErrMsg path]
    else []
  let e2 :=
    match getField j "size" with
    | some (.num n) => if n > 100 then [sizeErrMsg path n] else []
    | _ => []
  let n1 :=
    if hasKey j "unitPrice" && !(hasKey j "unitCost") then
      [unitPriceNoteMsg path]
    else []
  (e1 ++ e2, n1)

/-- `${path}.${key}` with the empty-path special case of `checkObject`. -/
def childPath (path key : String) : String :=
  if path = "" then key else path ++ "." ++ key

mutual

/-- `checkObject(obj, path)` of `lintJobTreadQuery`: runs the three lint rules
on the node, then recurses through `Object.entries`, using `path[i]` paths for
array elements and `path.key` paths for object fields. Primitives and `null`
return nothing (the `typeof` guard). -/
def checkObject (j : Json) (path : String) : List String × List String :=
  match j with
  | .obj fields =>
    let node := lintNodeRules (.obj fields) path
    let children := checkEntries fields path
    (node.1 ++ children.1, node.2 ++ children.2)
  | .arr items =>
    -- `typeof array === 'object'`: the rules find no own `email`/`size`/
    -- `unitPrice` property, and `Object.entries` enumerates indices.
    checkIndexEntries items path 0
  | _ => ([], [])

/-- The `Object.entries` loop of `checkObject` over an object's fields. -/
def checkEntries (fields : List (String × Json)) (path : String) :
    List String × List String :=
  match fields with
  | [] => ([], [])
  | (key, value) :: rest =>
    let newPath := childPath path key
    let child :=
      match value with
      | .arr items => checkItems items newPath 0
      | .obj f => checkObject (.obj f) newPath
      | _ => ([], [])
    let restRes := checkEntries rest path
    (child.1 ++ restRes.1, child.2 ++ restRes.2)

/-- The `Object.entries` loop of `checkObject` when the node itself is an
array: keys are the stringified indices. -/
def checkIndexEntries (items : List Json) (path : String) (idx : Nat) :
    List String × List String :=
  match items with
  | [] => ([], [])
  | item :: rest =>
    let newPath := childPath path (toString idx)
    let child :=
      match item with
      | .arr items2 => checkItems items2 newPath 0
      | .obj f => checkObject (.obj f) newPath
      | _ => ([], [])
    let restRes := checkIndexEntries rest path (idx + 1)
    (child.1 ++ restRes.1, child.2 ++ restRes.2)

/-- The `value.forEach((item, index) => checkObject(item, path[index]))`
branch for array-valued entries. -/
def checkItems (items : List Json) (basePath : String) (idx : Nat) :
    List String × List String :=
  match items with
  | [] => ([], [])
  | item :: rest =>
    let child := checkObject item (basePath ++ "[" ++ toString idx ++ "]")
    let restRes := checkItems rest basePath (idx + 1)
    (child.1 ++ restRes.1, child.2 ++ restRes.2)

end

/-- `lintJobTreadQuery(pave)`: recursive business-rule check; `valid` iff no
errors were accumulated. -/
def lintJobTreadQuery (pave : Json) : LintResult :=
  let res := checkObject pave ""
  { valid := res.1.isEmpty, notes := res.2, errors := res.1 }

/-! ## `src/lib/auth.ts` — HMAC signature verification and tenant keys

The HMAC-SHA256 digest itself is computed by Node's `crypto` library, an
external collaborator; it enters the model as an explicit byte-producing
oracle `hmacBytes : secret → body → bytes`. Everything the repository's own
code does — the `sha256=` prefix check, hex encoding/decoding with Node
`Buffer` semantics, the length check and byte comparison — is modelled
directly. -/

/-- Hex digit for a nibble, lowercase, as produced by `digest('hex')`. -/
def hexDigitChar (n : Nat) : Char :=
  if n < 10 then Char.ofNat (48 + n) else Char.ofNat (87 + n)

/-- Lowercase hex encoding of a byte list (`digest('hex')`). -/
def hexEncode (bytes : List Nat) : String :=
  String.mk (bytes.foldr (fun b acc =>
    hexDigitChar (b / 16) :: hexDigitChar (b % 16) :: acc) [])

/-- Value of a hex digit character, accepting both cases, `none` otherwise. -/
def hexVal (c : Char) : Option Nat :=
  if 48 ≤ c.toNat ∧ c.toNat ≤ 57 then some (c.toNat - 48)
  else if 97 ≤ c.toNat ∧ c.toNat ≤ 102 then some (c.toNat - 87)
  else if 65 ≤ c.toNat ∧ c.toNat ≤ 70 then some (c.toNat - 55)
  else none

/-- `Buffer.from(s, 'hex')`: decode pairs of hex digits from the left and
stop silently (returning the prefix decoded so far) at the first invalid
pair or odd trailing character — Node never throws here. -/
def hexDecode (cs : List Char) : List Nat :=
  match cs with
  | c1 :: c2 :: rest =>
    match hexVal c1, hexVal c2 with
    | some hi, some lo => (16 * hi + lo) :: hexDecode rest
    | _, _ => []
  | _ => []

/-- `verifyHmacSignature(body, signature, secret)`: requires the
`sha256=<hex>` shape, hex-decodes the provided signature and the expected
digest, short-circuits on a length mismatch and otherwise compares the byte
lists (`crypto.timingSafeEqual`). Total — the `try`/`catch` in the source
and Node's lenient hex decoding mean no code path throws. -/
def verifyHmacSignature (hmacBytes : String → String → List Nat)
    (body signature secret : String) : Bool :=
  if signature = "" || !(strStartsWith signature "sha256=") then
    false
  else
    let providedSignature := signature.toList.drop 7
    let expectedSignature := hexEncode (hmacBytes secret body)
    let providedBuffer := hexDecode providedSignature
    let expectedBuffer := hexDecode expectedSignature.toList
    if providedBuffer.length ≠ expectedBuffer.length then
      false
    else
      providedBuffer == expectedBuffer

/-- The two tenants of the gateway. -/
inductive Brand where
  | DB : Brand
  | CI : Brand
deriving DecidableEq, Repr

/-- Brand name as it appears in cache keys and log entries. -/
def Brand.toStr : Brand → String
  | .DB => "DB"
  | .CI => "CI"

/-- The environment-provided configuration consumed by `auth.ts`,
`server.ts` and `allowlist.ts`; `none` models an unset (or empty, hence
falsy) environment variable. -/
structure Config where
  hmacSecret : Option String
  gatewayKeyDB : Option String
  gatewayKeyCI : Option String
  jtGrantKeyDB : Option String
  jtGrantKeyCI : Option String
  allowHosts : Option String

/-- `getBrandFromGatewayKey(key)`: throws when either gateway key is
unconfigured, otherwise exact string comparison; `none` for no match. -/
def getBrandFromGatewayKey (cfg : Config) (key : String) :
    Except String (Option Brand) :=
  match cfg.gatewayKeyDB, cfg.gatewayKeyCI with
  | some db, some ci =>
    if key = db then .ok (some .DB)
    else if key = ci then .ok (some .CI)
    else .ok none
  | _, _ => .error "Gateway keys not configured in environment variables"

/-- `getGrantKeyForBrand(brand)`: the tenant-scoped JobTread credential,
throwing when unconfigured. -/
def getGrantKeyForBrand (cfg : Config) (brand : Brand) : Except String String :=
  let grantKey := match brand with
    | .DB => cfg.jtGrantKeyDB
    | .CI => cfg.jtGrantKeyCI
  match grantKey with
  | some g => .ok g
  | none => .error ("JobTread grant key not configured for brand: " ++ brand.toStr)

/-! ## `src/lib/logs.ts` — audit log store, retention and secret masking

At runtime the log store holds untyped JS objects, so entries are modelled
as `Json` values; the pipeline constructs its entries explicitly. The
retention cutoff (`now` minus `LOG_RETENTION_DAYS`, default 60 days, as an
ISO string) is calendar arithmetic on the system clock, an external
collaborator, so it enters the model as an explicit parameter. -/

/-- `entry.timestamp < cutoff` for an untyped entry: string comparison when
the field holds a string, `false` otherwise (JS comparison with `undefined`
is falsy). -/
def tsOlderThan (entry : Json) (cutoff : String) : Bool :=
  match getField entry "timestamp" with
  | some (.str t) => strLt t cutoff
  | _ => false

/-- The `while`/`splice` loop of `addLog`: drop every entry whose timestamp
is strictly older than the cutoff, preserving order. -/
def pruneOld (cutoff : String) : List Json → List Json
  | [] => []
  | e :: rest =>
    if tsOlderThan e cutoff then pruneOld cutoff rest
    else e :: pruneOld cutoff rest

/-- `addLog(entry)`: push the entry, then prune every stored entry strictly
older than the retention cutoff. The entry is stored verbatim — no masking
happens on the write path. -/
def addLog (entry : Json) (cutoff : String) (logs : List Json) : List Json :=
  pruneOld cutoff (logs ++ [entry])

/-- Optional query filters of `getLogs`. -/
structure LogFilters where
  traceId : Option String
  brand : Option String
  action : Option String
  status : Option String

/-- No filters supplied. -/
def noFilters : LogFilters :=
  { traceId := none, brand := none, action := none, status := none }

/-- `log.field === value` on an untyped entry. -/
def fieldEqStr (entry : Json) (key value : String) : Bool :=
  match getField entry key with
  | some (.str s) => s == value
  | _ => false

/-- Apply one optional equality filter. -/
def applyFilter (key : String) (value : Option String) (l : List Json) :
    List Json :=
  match value with
  | none => l
  | some v => l.filter (fun e => fieldEqStr e key v)

/-- Timestamp used by the descending sort; entries written by the pipeline
always carry a string timestamp. -/
def tsOf (entry : Json) : String :=
  match getField entry "timestamp" with
  | some (.str t) => t
  | _ => ""

/-- Insert into a list sorted by timestamp descending. -/
def insertByTsDesc (e : Json) : List Json → List Json
  | [] => [e]
  | x :: rest =>
    if strLe (tsOf x) (tsOf e) then e :: x :: rest
    else x :: insertByTsDesc e rest

/-- `sort((a, b) => b.timestamp.localeCompare(a.timestamp))`: newest first. -/
def sortByTsDesc : List Json → List Json
  | [] => []
  | e :: rest => insertByTsDesc e (sortByTsDesc rest)

/-- `getLogs(filters)`: copy, apply each supplied filter conjunctively, sort
newest-first. -/
def getLogs (filters : LogFilters) (logs : List Json) : List Json :=
  let l := applyFilter "traceId" filters.traceId logs
  let l := applyFilter "brand" filters.brand l
  let l := applyFilter "action" filters.action l
  let l := applyFilter "status" filters.status l
  sortByTsDesc l

/-- The fixed list of sensitivity markers of `maskSecrets`. -/
def sensitiveKeys : List String :=
  ["grantkey", "password", "secret", "token", "key", "authorization"]

/-- A field name is sensitive when its lowercasing contains one of the
markers. -/
def isSensitiveKey (key : String) : Bool :=
  sensitiveKeys.any (fun s => strIncludes (strToLower key) s)

mutual

/-- `maskSecrets(obj)`: recursively replace the value of every field whose
name (case-insensitive) contains a sensitivity marker with `***MASKED***`;
recurse through arrays and nested objects, return primitives unchanged. -/
def maskSecrets (j : Json) : Json :=
  match j with
  | .arr items => .arr (maskSecretsList items)
  | .obj fields => .obj (maskSecretsFields fields)
  | other => other

/-- `obj.map(item => maskSecrets(item))`. -/
def maskSecretsList (items : List Json) : List Json :=
  match items with
  | [] => []
  | item :: rest => maskSecrets item :: maskSecretsList rest

/-- The `Object.entries` loop of `maskSecrets`. -/
def maskSecretsFields (fields : List (String × Json)) : List (String × Json) :=
  match fields with
  | [] => []
  | (key, value) :: rest =>
    let masked :=
      if isSensitiveKey key then Json.str "***MASKED***"
      else
        match value with
        | .arr items => Json.arr (maskSecretsList items)
        | .obj f => Json.obj (maskSecretsFields f)
        | other => other
    (key, masked) :: maskSecretsFields rest

end

/-! ## `src/lib/allowlist.ts` — webhook host allowlist -/

/-- The `for` loop of `isHostAllowed` over the configured hosts: exact
match, subdomain match (`hostname` ends with `"." ++ allowed`), and the
reverse check (`allowed` ends with `"." ++ hostname`). -/
def isHostAllowedHost (allowedHosts : List String) (hostname : String) : Bool :=
  allowedHosts.any (fun allowedHost =>
    hostname == allowedHost ||
    strEndsWith hostname ("." ++ allowedHost) ||
    strEndsWith allowedHost ("." ++ hostname))

/-- `isHostAllowed(url)`: throws when `ALLOW_HOSTS` is unconfigured; an
unparsable URL (`new URL` threw, modelled as a `none` hostname from the URL
oracle) yields `false`; otherwise split the configuration on commas, trim,
and run the matching loop. -/
def isHostAllowed (allowHosts : Option String) (hostname : Option String) :
    Except String Bool :=
  match allowHosts with
  | none => .error "ALLOW_HOSTS environment variable not configured"
  | some ah =>
    match hostname with
    | none => .ok false
    | some h =>
      let allowedHosts := (splitOnComma ah).map trimStr
      .ok (isHostAllowedHost allowedHosts h)

/-! ## `src/lib/http.ts` — resilient HTTP client

The wire itself (`undici`'s `request`, reading the response body, JSON
parsing of the payload) is an external collaborator: the outcome of the
`k`-th attempt — a transport-level error message or a response that already
carries its parsed `data` — enters as an oracle `Nat → Except String
HttpResponse`. The model returns, alongside the result, the list of backoff
sleeps (in milliseconds) the loop performed, so timing claims are visible. -/

/-- Response of `httpRequest`: status code and opportunistically parsed
body. -/
structure HttpResponse where
  status : Nat
  data : Json
deriving Repr

/-- The aggregated failure message raised after the final attempt. -/
def httpExhaustedMsg (maxRetries : Nat) (lastMsg : String) : String :=
  "HTTP request failed after " ++ toString (maxRetries + 1) ++
  " attempts: " ++ lastMsg

/-- Backoff before retry number `attempt` (1-based): `2^(attempt-1)`
seconds in milliseconds. -/
def backoffDelayMs (attempt : Nat) : Nat :=
  2 ^ (attempt - 1) * 1000

/-- The `while (attempt <= maxRetries)` loop of `httpRequest`. `attempt` is
the 0-based index of the attempt about to run; `delays` accumulates the
backoff sleeps performed so far. The fuel equals the number of loop
iterations still permitted and starts at `maxRetries + 1`. -/
def httpRequestGo (oracle : Nat → Except String HttpResponse)
    (maxRetries : Nat) : Nat → List Nat → Nat →
    Except String (HttpResponse × List Nat)
  | _, _, 0 => .error "HTTP request failed"
  | attempt, delays, fuel + 1 =>
    match oracle attempt with
    | .ok response => .ok (response, delays)
    | .error e =>
      let attempt' := attempt + 1
      if attempt' > maxRetries then
        .error (httpExhaustedMsg maxRetries e)
      else
        httpRequestGo oracle maxRetries attempt'
          (delays ++ [backoffDelayMs attempt']) fuel

/-- `httpRequest(options)`: run the attempt loop from attempt 0. A response
— whatever its status code — is returned to the caller as a success; only a
transport-level failure (oracle `.error`) is retried, with exponential
backoff, and exhausting all retries raises the single aggregated failure. -/
def httpRequest (oracle : Nat → Except String HttpResponse)
    (maxRetries : Nat) : Except String (HttpResponse × List Nat) :=
  httpRequestGo oracle maxRetries 0 [] (maxRetries + 1)

/-! ## JSON schemas

The schema files under `src/schemas/` are loaded from disk at startup and
are not part of the source tree; the validators compiled from them are
modelled from the spec. -/

/-- Execution mode of an envelope. -/
inductive Mode where
  | dry_run : Mode
  | execute : Mode
deriving DecidableEq, Repr

/-- Wire string of a mode. -/
def Mode.toStr : Mode → String
  | .dry_run => "dry_run"
  | .execute => "execute"

/-- The known action names (the `enum` of the envelope schema). -/
def knownActions : List String :=
  ["echo", "jobtread.query", "jobtread.pushJobToQbo", "make.trigger"]

/-- Modelled from the spec: `src/schemas/envelope.schema.json` is not in the
source tree. Per the spec the envelope schema requires `action` (enum of
known action names), `mode` (`dry_run` or `execute`), `idempotencyKey`
(string) and `params` (structured payload, an object), and rejects unknown
top-level fields (strict mode). -/
def validateEnvelope (j : Json) : Bool :=
  match j with
  | .obj fields =>
    fields.all (fun p =>
      p.1 == "action" || p.1 == "mode" || p.1 == "idempotencyKey" ||
      p.1 == "params") &&
    (match getField (.obj fields) "action" with
     | some (.str a) => knownActions.contains a
     | _ => false) &&
    (match getField (.obj fields) "mode" with
     | some (.str m) => m == "dry_run" || m == "execute"
     | _ => false) &&
    (match getField (.obj fields) "idempotencyKey" with
     | some (.str _) => true
     | _ => false) &&
    (match getField (.obj fields) "params" with
     | some (.obj _) => true
     | _ => false)
  | _ => false

/-- Modelled from the spec: `src/schemas/jobtread.query.schema.json` is not
in the source tree; per the repository documentation the params schema
requires `params.pave` to be an object. -/
def validateJobTreadQueryParams (params : Json) : Bool :=
  match getField params "pave" with
  | some (.obj _) => true
  | _ => false

/-- Modelled from the spec: `src/schemas/jobtread.pushJobToQbo.schema.json`
is not in the source tree; per the repository documentation the params
schema requires `params.jobId` to be a non-empty string. -/
def validatePushJobToQboParams (params : Json) : Bool :=
  match getField params "jobId" with
  | some (.str s) => !(s = "")
  | _ => false

/-- Modelled from the spec: `src/schemas/make.trigger.schema.json` is not in
the source tree; per the repository documentation the params schema requires
`params.webhookUrl` (a URI string) and `params.payload` (an object). -/
def validateMakeTriggerParams (params : Json) : Bool :=
  (match getField params "webhookUrl" with
   | some (.str _) => true
   | _ => false) &&
  (match getField params "payload" with
   | some (.obj _) => true
   | _ => false)

/-! ## `src/actions/*.ts` — the action executors

Each executor is a function of its validated params, tenant-scoped
credentials, mode and (for side-effecting actions) the downstream HTTP
oracle; a thrown JS error is an `Except.error`. Successful executors return
`(result, notes, downstream-call count)` where the count records how many
outbound HTTP calls were made. -/

/-- `executeEcho(params, traceId)`. -/
def executeEcho (params : Json) (traceId timestamp : String) : Json :=
  .obj [("echo", params), ("traceId", .str traceId),
        ("timestamp", .str timestamp)]

/-- String field lookup with JS-style stringification fallback (the code
paths exercised always find a string). -/
def strFieldOf (j : Json) (key : String) : String :=
  match getField j key with
  | some (.str s) => s
  | _ => ""

/-- `executeJobTreadQuery(params, brand, grantKey, mode)`: lint first and
throw on lint errors; in dry-run mode return the validation message and the
lint notes; in execute mode POST the Pave body through `httpRequest` and
return the response data, wrapping a transport failure. The `grantKey`
argument feeds the Pave request body, which lives behind the HTTP oracle. -/
def executeJobTreadQuery (params : Json) (grantKey : String) (mode : Mode)
    (http : Except String HttpResponse) :
    Except String (Json × List String × Nat) :=
  let _ := grantKey
  let pave := (getField params "pave").getD .null
  let lint := lintJobTreadQuery pave
  if !lint.valid then
    .error ("JobTread query validation failed:\n" ++
      joinSep "\n" lint.errors)
  else
    match mode with
    | .dry_run =>
      .ok (.str "Dry run: Query validated successfully. Would execute against JobTread API.",
        lint.notes, 0)
    | .execute =>
      match http with
      | .ok response => .ok (response.data, lint.notes, 1)
      | .error e => .error ("JobTread query failed: " ++ e)

/-- `executeJobTreadPushJobToQbo(params, brand, grantKey, mode)`: dry-run
returns the descriptive message; execute POSTs the mutation through
`httpRequest`, wrapping a transport failure. The `grantKey` argument feeds
the Pave request body, which lives behind the HTTP oracle. -/
def executeJobTreadPushJobToQbo (params : Json) (grantKey : String)
    (mode : Mode) (http : Except String HttpResponse) :
    Except String (Json × List String × Nat) :=
  let _ := grantKey
  let jobId := strFieldOf params "jobId"
  match mode with
  | .dry_run =>
    .ok (.str ("Dry run: Would push job " ++ jobId ++
        " to QuickBooks Online via JobTread API."),
      ["This is a side-effect action - idempotency is enforced by the server"], 0)
  | .execute =>
    match http with
    | .ok response =>
      .ok (response.data,
        ["Job " ++ jobId ++ " pushed to QuickBooks Online successfully"], 1)
    | .error e => .error ("Failed to push job to QuickBooks: " ++ e)

/-- `executeMakeTrigger(params, mode)`: reject a webhook URL whose host is
not allowlisted (and propagate the configuration error when `ALLOW_HOSTS` is
unset); dry-run returns the descriptive message; execute POSTs the payload,
wrapping a transport failure. The `parseHost` oracle stands for `new
URL(url).hostname` (`none` when the constructor throws). -/
def executeMakeTrigger (params : Json) (allowHosts : Option String)
    (parseHost : String → Option String) (mode : Mode)
    (http : Except String HttpResponse) :
    Except String (Json × List String × Nat) :=
  let url := strFieldOf params "webhookUrl"
  match isHostAllowed allowHosts (parseHost url) with
  | .error e => .error e
  | .ok false =>
    .error ("Webhook URL host not allowed: " ++ url ++
      ". Host must be in ALLOW_HOSTS environment variable.")
  | .ok true =>
    match mode with
    | .dry_run =>
      .ok (.str ("Dry run: Would POST payload to Make.com webhook: " ++ url),
        ["Webhook URL validated against ALLOW_HOSTS"], 0)
    | .execute =>
      match http with
      | .ok response =>
        .ok (response.data, ["Make.com webhook triggered successfully"], 1)
      | .error e =>
        .error ("Failed to trigger Make.com webhook: " ++ e)

/-! ## `src/server.ts` — the `POST /v1/actions/execute` handler

The handler is modelled as a state-passing function over the two
process-lifetime stores (the idempotency cache and the audit log list).
Request-scoped non-determinism — the UUIDs `createTraceId` would mint, the
clock, the downstream HTTP outcome — is captured in a `Ctx` of oracles. The
returned `events` list records the observable side operations in order, so
claims about what a request did or did not do are statable. -/

/-- Observable side operations of one pipeline invocation. -/
inductive Event where
  | paramsValidated (action : String) : Event
  | cacheChecked (key : String) : Event
  | cacheHit (key : String) : Event
  | executorInvoked (action : String) : Event
  | downstreamCall : Event
  | logAppended : Event
  | cacheStored (key : String) : Event
deriving DecidableEq, Repr

/-- The JSON body the handler returns. `details` records whether the
response carried the ajv `details` array (whose error-object payload belongs
to the external validator library). -/
structure Response where
  ok : Bool
  traceId : Option String
  result : Option Json
  notes : Option (List String)
  error : Option String
  details : Bool
deriving Repr

/-- A failure response without trace identifier or details. -/
def errResp (msg : String) : Response :=
  { ok := false, traceId := none, result := none, notes := none,
    error := some msg, details := false }

/-- A failure response carrying the ajv `details` array. -/
def errRespDetails (msg : String) : Response :=
  { ok := false, traceId := none, result := none, notes := none,
    error := some msg, details := true }

/-- The idempotency cache: `Map<action:brand:idempotencyKey, response>`. -/
abbrev Cache := List (String × Response)

/-- `Map.get` (after a positive `Map.has`). -/
def cacheGet (c : Cache) (key : String) : Option Response :=
  (c.find? (fun p => p.1 == key)).map (fun p => p.2)

/-- `Map.set`: overwrite the existing binding or append a new one. -/
def cacheSet (c : Cache) (key : String) (v : Response) : Cache :=
  match c with
  | [] => [(key, v)]
  | (k', v') :: rest =>
    if k' == key then (key, v) :: rest else (k', v') :: cacheSet rest key v

/-- Request-scoped oracles: configuration, Node `crypto`, `new URL`, the two
UUIDs `createTraceId` could mint (main flow and catch handler), the clock
(log timestamp, measured duration, retention cutoff) and the downstream HTTP
outcome. -/
structure Ctx where
  cfg : Config
  hmacBytes : String → String → List Nat
  parseHost : String → Option String
  freshTraceId : String
  catchTraceId : String
  nowTs : String
  duration : Nat
  cutoff : String
  http : Except String HttpResponse

/-- `envelope.action` as read by the handler after validation. -/
def envAction (envelope : Json) : String :=
  strFieldOf envelope "action"

/-- `envelope.idempotencyKey` as read by the handler after validation. -/
def envIdempotencyKey (envelope : Json) : String :=
  strFieldOf envelope "idempotencyKey"

/-- `envelope.mode` as read (and cast) by the handler after validation. -/
def envMode (envelope : Json) : Mode :=
  if strFieldOf envelope "mode" = "execute" then .execute else .dry_run

/-- A JS exception unwinding to the route's `catch` block, carrying the
message and the handler-scoped variables assigned before the throw. -/
structure Thrown where
  msg : String
  traceId : Option String
  brand : Option Brand
  action : Option String
  mode : Option Mode
  events : List Event

/-- Terminal outcome of one invocation: HTTP status, response body, and the
two stores after the request, plus the observable events in order. -/
structure PipeOut where
  status : Nat
  resp : Response
  cache : Cache
  logs : List Json
  events : List Event

/-- The log entry object built inline at the `addLog` call sites. -/
def mkLogEntry (timestamp traceId : String) (brand : Brand) (action : String)
    (mode : Mode) (status : String) (duration : Nat) (notes : List String)
    (error : Option String) : Json :=
  .obj ([("timestamp", .str timestamp), ("traceId", .str traceId),
         ("brand", .str brand.toStr), ("action", .str action),
         ("mode", .str mode.toStr), ("status", .str status),
         ("duration", .num (duration : Int)),
         ("notes", .arr (notes.map .str))] ++
    (match error with
     | some e => [("error", .str e)]
     | none => []))

/-- Outcome of the step-6 per-action params switch. -/
inductive ParamsCheck where
  | unknownAction : ParamsCheck
  | checked (validatorRan : Bool) (valid : Bool) : ParamsCheck

/-- Step 6: select and run the per-action params validator; echo accepts any
params without running a validator. -/
def checkParams (action : String) (params : Json) : ParamsCheck :=
  match action with
  | "echo" => .checked false true
  | "jobtread.query" => .checked true (validateJobTreadQueryParams params)
  | "jobtread.pushJobToQbo" => .checked true (validatePushJobToQboParams params)
  | "make.trigger" => .checked true (validateMakeTriggerParams params)
  | _ => .unknownAction

/-- Steps 9–12: on executor success, append the success log entry, build
the response, and store it in the idempotency cache in execute mode only. -/
def successOut (ctx : Ctx) (brand : Brand) (traceId action : String)
    (mode : Mode) (key : String) (result : Json) (notes : List String)
    (downstreamCalls : Nat) (cache : Cache) (logs : List Json)
    (events : List Event) : PipeOut :=
  let entry := mkLogEntry ctx.nowTs traceId brand action mode "success"
    ctx.duration notes none
  let logs' := addLog entry ctx.cutoff logs
  let response : Response :=
    { ok := true, traceId := some traceId, result := some result,
      notes := some notes, error := none, details := false }
  let events' := events ++ [Event.executorInvoked action] ++
    List.replicate downstreamCalls Event.downstreamCall ++ [Event.logAppended]
  match mode with
  | .execute =>
    { status := 200, resp := response, cache := cacheSet cache key response,
      logs := logs', events := events' ++ [Event.cacheStored key] }
  | .dry_run =>
    { status := 200, resp := response, cache := cache, logs := logs',
      events := events' }

/-- Step 8: `jobtread.*` actions fetch the tenant grant key, throwing when
it is unconfigured; other actions proceed without one. -/
def grantKeyStage (ctx : Ctx) (brand : Brand) (traceId action : String)
    (mode : Mode) (events : List Event) : Except Thrown (Option String) :=
  if strStartsWith action "jobtread." then
    match getGrantKeyForBrand ctx.cfg brand with
    | .ok g => .ok (some g)
    | .error e =>
      .error ⟨e, some traceId, some brand, some action, some mode, events⟩
  else
    .ok none

/-- Steps 8 and 10: fetch the tenant grant key for `jobtread.*` actions
(throwing when unconfigured) and route to the action executor; an executor
failure unwinds to the catch block with the handler variables set. -/
def dispatchStage (ctx : Ctx) (brand : Brand) (traceId action : String)
    (mode : Mode) (params : Json) (key : String) (cache : Cache)
    (logs : List Json) (events : List Event) : Except Thrown PipeOut :=
  match grantKeyStage ctx brand traceId action mode events with
  | .error t => .error t
  | .ok grantKey =>
    match action with
    | "echo" =>
      -- `executeEcho` is synchronous and never throws.
      successOut ctx brand traceId action mode key
        (executeEcho params traceId ctx.nowTs) [] 0 cache logs events |> .ok
    | "jobtread.query" =>
      match executeJobTreadQuery params (grantKey.getD "") mode ctx.http with
      | .ok (result, notes, d) =>
        successOut ctx brand traceId action mode key result notes d
          cache logs events |> .ok
      | .error e =>
        .error ⟨e, some traceId, some brand, some action, some mode,
          events ++ [Event.executorInvoked action]⟩
    | "jobtread.pushJobToQbo" =>
      match executeJobTreadPushJobToQbo params (grantKey.getD "") mode
          ctx.http with
      | .ok (result, notes, d) =>
        successOut ctx brand traceId action mode key result notes d
          cache logs events |> .ok
      | .error e =>
        .error ⟨e, some traceId, some brand, some action, some mode,
          events ++ [Event.executorInvoked action]⟩
    | "make.trigger" =>
      match executeMakeTrigger params ctx.cfg.allowHosts ctx.parseHost mode
          ctx.http with
      | .ok (result, notes, d) =>
        successOut ctx brand traceId action mode key result notes d
          cache logs events |> .ok
      | .error e =>
        .error ⟨e, some traceId, some brand, some action, some mode,
          events ++ [Event.executorInvoked action]⟩
    | _ =>
      -- Unreachable: the step-6 switch already returned 422 for any other
      -- action name (the source's second switch has no default branch).
      successOut ctx brand traceId action mode key .null [] 0
        cache logs events |> .ok

/-- The idempotency key of step 7: `action:brand:idempotencyKey`. -/
def compositeKey (action : String) (brand : Brand) (envelope : Json) :
    String :=
  action ++ ":" ++ brand.toStr ++ ":" ++ envIdempotencyKey envelope

/-- Step 7: the idempotency gate. The cache is consulted only in execute
mode; a hit returns the stored response unchanged and short-circuits
dispatch. -/
def cacheGateStage (ctx : Ctx) (brand : Brand) (traceId action : String)
    (mode : Mode) (params : Json) (envelope : Json) (cache : Cache)
    (logs : List Json) (events : List Event) : Except Thrown PipeOut :=
  match mode with
  | .execute =>
    match cacheGet cache (compositeKey action brand envelope) with
    | some cachedResult =>
      .ok { status := 200, resp := cachedResult, cache := cache, logs := logs,
            events := (events ++
                [Event.cacheChecked (compositeKey action brand envelope)]) ++
              [Event.cacheHit (compositeKey action brand envelope)] }
    | none =>
      dispatchStage ctx brand traceId action mode params
        (compositeKey action brand envelope) cache logs
        (events ++ [Event.cacheChecked (compositeKey action brand envelope)])
  | .dry_run =>
    dispatchStage ctx brand traceId action mode params
      (compositeKey action brand envelope) cache logs events

/-- Steps 5–7: mint the trace identifier, validate the action params
(unknown action and invalid params return 422), then enter the idempotency
gate. -/
def afterEnvelopeStage (ctx : Ctx) (brand : Brand) (envelope : Json)
    (cache : Cache) (logs : List Json) : Except Thrown PipeOut :=
  match checkParams (envAction envelope)
      ((getField envelope "params").getD .null) with
  | .unknownAction =>
    .ok { status := 422,
          resp := errResp ("Unknown action: " ++ envAction envelope),
          cache := cache, logs := logs, events := [] }
  | .checked validatorRan valid =>
    if !valid && validatorRan then
      .ok { status := 422,
            resp := errRespDetails "Invalid parameters for action",
            cache := cache, logs := logs,
            events := if validatorRan then
              [Event.paramsValidated (envAction envelope)] else [] }
    else
      cacheGateStage ctx brand ctx.freshTraceId (envAction envelope)
        (envMode envelope) ((getField envelope "params").getD .null) envelope
        cache logs
        (if validatorRan then
          [Event.paramsValidated (envAction envelope)] else [])

/-- Steps 1–4 of the handler: presence of the raw body and the two headers,
HMAC verification (throwing when `HMAC_SECRET` is unconfigured), tenant
resolution (throwing when the gateway keys are unconfigured) and envelope
schema validation; then the validated stages. -/
def runInner (ctx : Ctx) (rawBody gatewayKey signature : String)
    (envelope : Json) (cache : Cache) (logs : List Json) :
    Except Thrown PipeOut :=
  if rawBody = "" then
    .ok { status := 400, resp := errResp "Request body is required",
          cache := cache, logs := logs, events := [] }
  else if gatewayKey = "" then
    .ok { status := 401, resp := errResp "x-gateway-key header is required",
          cache := cache, logs := logs, events := [] }
  else if signature = "" then
    .ok { status := 401, resp := errResp "X-Signature header is required",
          cache := cache, logs := logs, events := [] }
  else
    match ctx.cfg.hmacSecret with
    | none => .error ⟨"HMAC_SECRET not configured", none, none, none, none, []⟩
    | some hmacSecret =>
      if !verifyHmacSignature ctx.hmacBytes rawBody signature hmacSecret then
        .ok { status := 401, resp := errResp "Invalid HMAC signature",
              cache := cache, logs := logs, events := [] }
      else
        match getBrandFromGatewayKey ctx.cfg gatewayKey with
        | .error e => .error ⟨e, none, none, none, none, []⟩
        | .ok none =>
          .ok { status := 401, resp := errResp "Invalid gateway key",
                cache := cache, logs := logs, events := [] }
        | .ok (some brand) =>
          if !validateEnvelope envelope then
            .ok { status := 422,
                  resp := errRespDetails "Invalid request format",
                  cache := cache, logs := logs, events := [] }
          else
            afterEnvelopeStage ctx brand envelope cache logs

/-- The route's `catch` block: a thrown error becomes a 500 response that
always carries a trace identifier (minting one when the throw happened
before step 5), and an error log entry is appended when brand, action and
mode were already assigned. -/
def catchHandler (ctx : Ctx) (cache : Cache) (logs : List Json)
    (t : Thrown) : PipeOut :=
  let traceId := t.traceId.getD ctx.catchTraceId
  let response : Response :=
    { ok := false, traceId := some traceId, result := none, notes := none,
      error := some t.msg, details := false }
  match t.brand, t.action, t.mode with
  | some brand, some action, some mode =>
    { status := 500, resp := response, cache := cache,
      logs := addLog (mkLogEntry ctx.nowTs traceId brand action mode
        "error" ctx.duration [] (some t.msg)) ctx.cutoff logs,
      events := t.events ++ [Event.logAppended] }
  | _, _, _ =>
    { status := 500, resp := response, cache := cache, logs := logs,
      events := t.events }

/-- The whole route handler, `try` body plus `catch` block. -/
def executePipeline (ctx : Ctx) (rawBody gatewayKey signature : String)
    (envelope : Json) (cache : Cache) (logs : List Json) : PipeOut :=
  match runInner ctx rawBody gatewayKey signature envelope cache logs with
  | .ok out => out
  | .error t => catchHandler ctx cache logs t

/-! ## Concrete fixtures

A fully configured environment and concrete requests, used to evaluate the
pipeline at specific inputs. -/

/-- A fully configured environment. -/
def stdCfg : Config :=
  { hmacSecret := some "sec", gatewayKeyDB := some "gkDB",
    gatewayKeyCI := some "gkCI", jtGrantKeyDB := some "grantDB",
    jtGrantKeyCI := some "grantCI", allowHosts := some "hooks.make.com" }

/-- A standard request context: the HMAC oracle digests everything to the
two bytes `[0, 255]` (hex `00ff`), so the matching signature header is
`sha256=00ff`; the downstream HTTP oracle reports a transport failure. -/
def stdCtx : Ctx :=
  { cfg := stdCfg, hmacBytes := fun _ _ => [0, 255],
    parseHost := fun _ => some "hooks.make.com",
    freshTraceId := "trace-1", catchTraceId := "trace-catch",
    nowTs := "2026-01-01T00:00:00.000Z", duration := 5,
    cutoff := "2025-11-01T00:00:00.000Z",
    http := .error "connect ECONNREFUSED" }

/-- The standard context with a given downstream transport failure. -/
def failCtx (e : String) : Ctx :=
  { stdCtx with http := .error e }

/-- An execute-mode `jobtread.pushJobToQbo` envelope with idempotency key
`k`. -/
def pushEnvelopeK (k : String) : Json :=
  .obj [("action", .str "jobtread.pushJobToQbo"), ("mode", .str "execute"),
        ("idempotencyKey", .str k),
        ("params", .obj [("jobId", .str "12345")])]

/-- The execute-mode push envelope with idempotency key `k1`. -/
def pushEnvelope : Json :=
  pushEnvelopeK "k1"

/-- The same request in dry-run mode. -/
def pushEnvelopeDry : Json :=
  .obj [("action", .str "jobtread.pushJobToQbo"), ("mode", .str "dry_run"),
        ("idempotencyKey", .str "k1"),
        ("params", .obj [("jobId", .str "12345")])]

/-- A `jobtread.query` envelope whose Pave query requests page size `n`. -/
def queryEnvelope (n : Int) : Json :=
  .obj [("action", .str "jobtread.query"), ("mode", .str "dry_run"),
        ("idempotencyKey", .str "k1"),
        ("params", .obj [("pave", .obj [("jobs", .obj [("size", .num n)])])])]

/-- A previously stored terminal response, as the idempotency cache would
hold it. -/
def cachedResp : Response :=
  { ok := true, traceId := some "trace-0",
    result := some (.str "old result"), notes := some ["old note"],
    error := none, details := false }

/-- A cache holding `cachedResp` under the push request's composite key. -/
def hitCache : Cache :=
  [("jobtread.pushJobToQbo:DB:k1", cachedResp)]

end Gateway

namespace Gateway

/-! ## C10 — the allowlist admits parent domains -/

/-- C10: there is a hostname (`make.com`) that is neither listed in the
allowlist (`hooks.make.com`) nor a subdomain of a listed host, yet
`isHostAllowed` accepts it; in general, whenever a configured allowed host
ends with `"."` followed by the URL's hostname, the reverse-match branch
accepts the host, so the allowlist also admits every parent domain of every
configured entry. -/
theorem allowlist_admits_parent_domains :
    (isHostAllowed (some "hooks.make.com") (some "make.com") = .ok true ∧
     ("make.com" = "hooks.make.com" → False) ∧
     strEndsWith "make.com" ("." ++ "hooks.make.com") = false) ∧
    (∀ (allowedHosts : List String) (hostname a : String),
      a ∈ allowedHosts → strEndsWith a ("." ++ hostname) = true →
      isHostAllowedHost allowedHosts hostname = true) := by
  constructor
  · refine ⟨rfl, by decide, by decide⟩
  · intro allowedHosts hostname a ha hends
    unfold isHostAllowedHost
    rw [List.any_eq_true]
    exact ⟨a, ha, by rw [hends]; simp⟩

/-- Witness for C10's universal component at a concrete allowlist. -/
theorem allowlist_admits_parent_domains_witness :
    isHostAllowedHost ["hooks.make.com"] "make.com" = true :=
  allowlist_admits_parent_domains.2 ["hooks.make.com"] "make.com"
    "hooks.make.com" (by decide) (by decide)

/-! ## C2 — the audit log does not mask secrets on the write path

`addLog` pushes the entry verbatim and `getLogs` returns stored entries
verbatim; `maskSecrets` exists (and would mask) but is never invoked on
either path, contradicting the comment at the `/admin/logs` call site
("secrets already masked in log storage") and the repository documentation
("All logs automatically mask sensitive data"). -/

/-- A log entry carrying a secret under a field name (`grantKey`) that
matches the sensitivity markers. -/
def sensitiveEntry : Json :=
  .obj [("timestamp", .str "2026-01-01T00:00:00.000Z"),
        ("traceId", .str "trace-9"),
        ("grantKey", .str "jt-grant-key-secret")]

/-- C2, failing input: after `addLog`, `query` returns the entry with the
`grantKey` value stored in the clear — not the fixed redaction marker —
even though `maskSecrets` applied to the same entry would have produced the
marker. So append does not redact before the entry becomes visible to
query. -/
theorem addLog_stores_secrets_unmasked :
    getLogs noFilters
        (addLog sensitiveEntry "2025-11-01T00:00:00.000Z" []) =
      [sensitiveEntry] ∧
    getField sensitiveEntry "grantKey" = some (.str "jt-grant-key-secret") ∧
    getField (maskSecrets sensitiveEntry) "grantKey" =
      some (.str "***MASKED***") := by
  refine ⟨rfl, rfl, rfl⟩

/-! ## C9 — HMAC signature verification -/

/-- Hex encoding and `hexVal` are inverse on nibbles. -/
theorem hexVal_hexDigitChar (n : Nat) (h : n < 16) :
    hexVal (hexDigitChar n) = some n := by
  interval_cases n <;> decide

/-- Character list of the hex encoding of a byte list. -/
theorem hexEncode_toList (bytes : List Nat) :
    (hexEncode bytes).toList =
      bytes.foldr (fun b acc =>
        hexDigitChar (b / 16) :: hexDigitChar (b % 16) :: acc) [] := rfl

/-- Decoding inverts encoding on genuine byte lists. -/
theorem hexDecode_hexEncode (bytes : List Nat) (h : ∀ b ∈ bytes, b < 256) :
    hexDecode (hexEncode bytes).toList = bytes := by
  induction bytes with
  | nil => rfl
  | cons b rest ih =>
    have hb : b < 256 := h b (by simp)
    have hhi : b / 16 < 16 := Nat.div_lt_of_lt_mul (by omega)
    have hlo : b % 16 < 16 := Nat.mod_lt _ (by norm_num)
    have hrest : hexDecode (hexEncode rest).toList = rest :=
      ih (fun x hx => h x (by simp [hx]))
    rw [hexEncode_toList] at hrest ⊢
    simp only [List.foldr_cons, hexDecode, hexVal_hexDigitChar _ hhi,
      hexVal_hexDigitChar _ hlo, hrest]
    rw [Nat.div_add_mod]

/-- C9, counterexample: with a digest oracle answering the bytes `[0, 255]`
(hex `00ff`), the correctly signed header is `sha256=00ff`; the header
`sha256=00fF` — a single-bit mutation of it, flipping the case bit of the
final hex digit — still verifies true, because `Buffer.from(hex)` decodes
hex case-insensitively; and the malformed-hex header `sha256=00ffz` also
verifies true, because Node truncates at the first invalid character and
the prefix already decodes to the full digest. So neither "any single-bit
mutation of the signature returns false" nor "malformed hex returns false"
holds of the code. -/
theorem verify_accepts_case_flip_and_truncated_hex :
    hexEncode [0, 255] = "00ff" ∧
    verifyHmacSignature (fun _ _ => [0, 255]) "body" "sha256=00fF" "sec" =
      true ∧
    verifyHmacSignature (fun _ _ => [0, 255]) "body" "sha256=00ffz" "sec" =
      true :=
  ⟨rfl, rfl, rfl⟩

/-- C9, amended: (1) the correctly signed `sha256=<hex>` header verifies;
(2) a mutation of the body, the signature header, or the secret is rejected
exactly when the header's hex payload no longer decodes — under Node
`Buffer`'s case-insensitive, truncate-at-first-invalid hex decoding — to
the digest of the body under the secret (so a case-flip of a hex digit or
trailing malformed characters after a complete correct digest still verify
true, as `verify_accepts_case_flip_and_truncated_hex` shows); and (3) a
header not of the `sha256=` shape is rejected before any digest work. The
function is total, so every rejection returns `false` rather than
throwing. -/
theorem verify_hmac_signature_contract :
    (∀ (hmacBytes : String → String → List Nat) (body secret : String),
      (∀ b ∈ hmacBytes secret body, b < 256) →
      verifyHmacSignature hmacBytes body
        ("sha256=" ++ hexEncode (hmacBytes secret body)) secret = true) ∧
    (∀ (hmacBytes : String → String → List Nat) (body secret sig : String),
      (∀ b ∈ hmacBytes secret body, b < 256) →
      hexDecode (sig.toList.drop 7) ≠ hmacBytes secret body →
      verifyHmacSignature hmacBytes body sig secret = false) ∧
    (∀ (hmacBytes : String → String → List Nat) (body secret sig : String),
      strStartsWith sig "sha256=" = false →
      verifyHmacSignature hmacBytes body sig secret = false) := by
  refine ⟨?_, ?_, ?_⟩
  · intro hmacBytes body secret hbytes
    have hlist : ("sha256=" ++ hexEncode (hmacBytes secret body)).toList =
        "sha256=".toList ++ (hexEncode (hmacBytes secret body)).toList := by
      simp [String.toList, String.data_append]
    have hpre : strStartsWith
        ("sha256=" ++ hexEncode (hmacBytes secret body)) "sha256=" = true := by
      rw [strStartsWith, hlist]
      exact List.isPrefixOf_iff_prefix.mpr (List.prefix_append _ _)
    have hne : ("sha256=" ++ hexEncode (hmacBytes secret body)) ≠ "" := by
      intro hW
      have := congrArg String.data hW
      simp [String.data_append] at this
    have hdrop : ("sha256=" ++ hexEncode (hmacBytes secret body)).toList.drop 7 =
        (hexEncode (hmacBytes secret body)).toList := by
      rw [hlist, show (7 : Nat) = "sha256=".toList.length from rfl,
        List.drop_left]
    have hrt := hexDecode_hexEncode (hmacBytes secret body) hbytes
    simp [verifyHmacSignature, hpre, hne, hdrop, hrt]
  · intro hmacBytes body secret sig hbytes hne
    by_cases h1 : (decide (sig = "") || !strStartsWith sig "sha256=") = true
    · simp [verifyHmacSignature, h1]
    · have hrt := hexDecode_hexEncode (hmacBytes secret body) hbytes
      by_cases h2 : (hexDecode (sig.toList.drop 7)).length =
          (hexDecode (hexEncode (hmacBytes secret body)).toList).length
      · simp only [verifyHmacSignature, h1, if_false, Bool.false_eq_true,
          h2, ne_eq, not_true_eq_false, if_false]
        rw [hrt]
        exact beq_eq_false_iff_ne.mpr hne
      · simp [verifyHmacSignature, h1]
        intro hlen
        exact absurd hlen (by simpa [String.toList] using h2)
  · intro hmacBytes body secret sig h
    simp [verifyHmacSignature, h]

/-- Witness for C9 at a concrete digest oracle: the matching header
verifies; a one-byte mutation of the hex payload and a malformed header are
rejected. -/
theorem verify_hmac_signature_contract_witness :
    verifyHmacSignature (fun _ _ => [0, 255]) "body"
        ("sha256=" ++ hexEncode [0, 255]) "sec" = true ∧
    verifyHmacSignature (fun _ _ => [0, 255]) "body" "sha256=00fe" "sec" =
      false ∧
    verifyHmacSignature (fun _ _ => [0, 255]) "body" "nope" "sec" = false :=
  ⟨verify_hmac_signature_contract.1 (fun _ _ => [0, 255]) "body" "sec"
      (by decide),
   verify_hmac_signature_contract.2.1 (fun _ _ => [0, 255]) "body" "sec"
      "sha256=00fe" (by decide) (by decide),
   verify_hmac_signature_contract.2.2 (fun _ _ => [0, 255]) "body" "sec"
      "nope" (by decide)⟩

/-! ## C7 — retry/backoff contract of the HTTP client -/

/-- Shifting the backoff schedule by one attempt. -/
theorem delaysShift (a k : Nat) :
    backoffDelayMs (a + 1) ::
        (List.range k).map (fun i => 2 ^ (a + 1 + i) * 1000) =
      (List.range (k + 1)).map (fun i => 2 ^ (a + i) * 1000) := by
  rw [List.range_succ_eq_map, List.map_cons, List.map_map]
  refine congrArg₂ List.cons ?_ ?_
  · simp [backoffDelayMs]
  · refine List.map_congr_left (fun i _ => ?_)
    simp only [Function.comp_apply]
    congr 1
    congr 1
    omega

/-- The attempt loop returns the first successful attempt's response after
exactly the failed attempts' backoff sleeps. -/
theorem httpRequestGo_ok (oracle : Nat → Except String HttpResponse)
    (m : Nat) (r : HttpResponse) (e : Nat → String) :
    ∀ (k a : Nat) (delays : List Nat) (fuel : Nat),
      (∀ i, i < k → oracle (a + i) = .error (e (a + i))) →
      oracle (a + k) = .ok r → a + k ≤ m → k + 1 ≤ fuel →
      httpRequestGo oracle m a delays fuel =
        .ok (r, delays ++ (List.range k).map (fun i => 2 ^ (a + i) * 1000)) := by
  intro k
  induction k with
  | zero =>
    intro a delays fuel hfail hok hm hfuel
    match fuel, hfuel with
    | fuel + 1, _ =>
      simp only [httpRequestGo]
      rw [show a + 0 = a from rfl] at hok
      rw [hok]
      simp
  | succ k ih =>
    intro a delays fuel hfail hok hm hfuel
    match fuel, hfuel with
    | fuel + 1, hfuel =>
      simp only [httpRequestGo]
      have h0 : oracle a = .error (e a) := by
        have h := hfail 0 (by omega)
        simpa using h
      rw [h0]
      have hng : ¬ (a + 1 > m) := by omega
      have hrec := ih (a + 1) (delays ++ [backoffDelayMs (a + 1)]) fuel
        (fun i hi => by
          have h := hfail (i + 1) (by omega)
          rwa [show a + (i + 1) = a + 1 + i by omega] at h)
        (by rwa [show a + 1 + k = a + (k + 1) by omega])
        (by omega) (by omega)
      show (if a + 1 > m then
          (Except.error (httpExhaustedMsg m (e a)) :
            Except String (HttpResponse × List Nat))
        else httpRequestGo oracle m (a + 1)
          (delays ++ [backoffDelayMs (a + 1)]) fuel) = _
      rw [if_neg hng, hrec, List.append_assoc, List.singleton_append,
        delaysShift]

/-- The attempt loop raises the aggregated failure once every attempt up to
`maxRetries` has failed at the transport level. -/
theorem httpRequestGo_exhaust (oracle : Nat → Except String HttpResponse)
    (m : Nat) (e : Nat → String) :
    ∀ (k a : Nat) (delays : List Nat) (fuel : Nat),
      a + k = m →
      (∀ i, a ≤ i → i ≤ m → oracle i = .error (e i)) →
      k + 1 ≤ fuel →
      httpRequestGo oracle m a delays fuel =
        .error (httpExhaustedMsg m (e m)) := by
  intro k
  induction k with
  | zero =>
    intro a delays fuel ham hfail hfuel
    match fuel, hfuel with
    | fuel + 1, _ =>
      simp only [httpRequestGo]
      rw [hfail a (le_refl a) (by omega)]
      show (if a + 1 > m then
          (Except.error (httpExhaustedMsg m (e a)) :
            Except String (HttpResponse × List Nat))
        else httpRequestGo oracle m (a + 1)
          (delays ++ [backoffDelayMs (a + 1)]) fuel) = _
      have hgt : a + 1 > m := by omega
      rw [if_pos hgt, show a = m by omega]
  | succ k ih =>
    intro a delays fuel ham hfail hfuel
    match fuel, hfuel with
    | fuel + 1, hfuel =>
      simp only [httpRequestGo]
      rw [hfail a (le_refl a) (by omega)]
      show (if a + 1 > m then
          (Except.error (httpExhaustedMsg m (e a)) :
            Except String (HttpResponse × List Nat))
        else httpRequestGo oracle m (a + 1)
          (delays ++ [backoffDelayMs (a + 1)]) fuel) = _
      have hng : ¬ (a + 1 > m) := by omega
      rw [if_neg hng]
      exact ih (a + 1) _ fuel (by omega)
        (fun i h1 h2 => hfail i (by omega) h2) (by omega)

/-- C7: `httpRequest` (1) returns any response — whatever its status code —
obtained on the first attempt, with no retry and no backoff sleep; (2) when
the first `k ≤ maxRetries` attempts fail at the transport level and attempt
`k` succeeds, it returns that response after exactly the backoff sleeps
`2^(attempt-1)` seconds (1s, 2s, ...) before each retry; and (3) when every
attempt up to `maxRetries` fails, it raises the single aggregated failure
naming the total attempt count `maxRetries + 1` and the last underlying
error. -/
theorem httpRequest_retry_contract :
    (∀ (oracle : Nat → Except String HttpResponse) (maxRetries : Nat)
        (r : HttpResponse),
      oracle 0 = .ok r →
      httpRequest oracle maxRetries = .ok (r, [])) ∧
    (∀ (oracle : Nat → Except String HttpResponse) (maxRetries k : Nat)
        (r : HttpResponse) (e : Nat → String),
      (∀ i, i < k → oracle i = .error (e i)) →
      oracle k = .ok r → k ≤ maxRetries →
      httpRequest oracle maxRetries =
        .ok (r, (List.range k).map (fun i => 2 ^ i * 1000))) ∧
    (∀ (oracle : Nat → Except String HttpResponse) (maxRetries : Nat)
        (e : Nat → String),
      (∀ i, i ≤ maxRetries → oracle i = .error (e i)) →
      httpRequest oracle maxRetries =
        .error (httpExhaustedMsg maxRetries (e maxRetries))) := by
  refine ⟨?_, ?_, ?_⟩
  · intro oracle maxRetries r hok
    have h := httpRequestGo_ok oracle maxRetries r (fun _ => "") 0 0 []
      (maxRetries + 1) (by omega) (by simpa using hok) (by omega) (by omega)
    simpa [httpRequest] using h
  · intro oracle maxRetries k r e hfail hok hk
    have h := httpRequestGo_ok oracle maxRetries r e k 0 [] (maxRetries + 1)
      (fun i hi => by simpa using hfail i hi) (by simpa using hok)
      (by omega) (by omega)
    simpa [httpRequest] using h
  · intro oracle maxRetries e hfail
    have h := httpRequestGo_exhaust oracle maxRetries e maxRetries 0 []
      (maxRetries + 1) (by omega) (fun i _ h2 => hfail i h2) (by omega)
    simpa [httpRequest] using h

/-- Witness for C7: a non-2xx first response is returned untouched; two
transport failures then a success produce the 1s and 2s sleeps; three
straight failures with `maxRetries = 2` raise the aggregated message naming
3 attempts and the last error. -/
theorem httpRequest_retry_contract_witness :
    httpRequest (fun _ => .ok ⟨500, .null⟩) 2 = .ok (⟨500, .null⟩, []) ∧
    httpRequest (fun i => if i < 2 then .error (toString i)
      else .ok ⟨200, .null⟩) 2 = .ok (⟨200, .null⟩, [1000, 2000]) ∧
    httpRequest (fun i => .error (toString i)) 2 =
      .error "HTTP request failed after 3 attempts: 2" :=
  ⟨httpRequest_retry_contract.1 (fun _ => .ok ⟨500, .null⟩) 2 ⟨500, .null⟩ rfl,
   httpRequest_retry_contract.2.1 (fun i => if i < 2 then .error (toString i)
      else .ok ⟨200, .null⟩) 2 2 ⟨200, .null⟩ (fun i => toString i)
      (by intro i hi; interval_cases i <;> rfl) rfl (by omega),
   httpRequest_retry_contract.2.2 (fun i => .error (toString i)) 2
      (fun i => toString i) (fun i _ => rfl)⟩

/-! ## C8 — retention pruning on append -/

/-- Membership in the pruned store: present before and not strictly older
than the cutoff. -/
theorem mem_pruneOld (cutoff : String) (l : List Json) (x : Json) :
    x ∈ pruneOld cutoff l ↔ x ∈ l ∧ tsOlderThan x cutoff = false := by
  induction l with
  | nil => simp [pruneOld]
  | cons e rest ih =>
    by_cases h : tsOlderThan e cutoff = true
    · rw [pruneOld, if_pos h, ih]
      constructor
      · rintro ⟨hm, hn⟩
        exact ⟨List.mem_cons_of_mem _ hm, hn⟩
      · rintro ⟨hm, hn⟩
        rcases List.mem_cons.mp hm with heq | hm2
        · subst heq
          rw [h] at hn
          cases hn
        · exact ⟨hm2, hn⟩
    · rw [pruneOld, if_neg h]
      have hfalse : tsOlderThan e cutoff = false := by
        cases hv : tsOlderThan e cutoff
        · rfl
        · exact absurd hv h
      constructor
      · intro hm
        rcases List.mem_cons.mp hm with heq | hm2
        · subst heq
          exact ⟨List.mem_cons_self _ _, hfalse⟩
        · have hr := ih.mp hm2
          exact ⟨List.mem_cons_of_mem _ hr.1, hr.2⟩
      · rintro ⟨hm, hn⟩
        rcases List.mem_cons.mp hm with heq | hm2
        · subst heq
          exact List.mem_cons_self _ _
        · exact List.mem_cons_of_mem _ (ih.mpr ⟨hm2, hn⟩)

/-- Insertion into the descending sort preserves membership. -/
theorem mem_insertByTsDesc (e x : Json) (l : List Json) :
    x ∈ insertByTsDesc e l ↔ x = e ∨ x ∈ l := by
  induction l with
  | nil => simp [insertByTsDesc]
  | cons y rest ih =>
    rw [insertByTsDesc]
    by_cases h : strLe (tsOf y) (tsOf e) = true
    · rw [if_pos h]
      simp [List.mem_cons]
    · rw [if_neg h]
      simp only [List.mem_cons, ih]
      tauto

/-- The descending sort preserves membership. -/
theorem mem_sortByTsDesc (l : List Json) (x : Json) :
    x ∈ sortByTsDesc l ↔ x ∈ l := by
  induction l with
  | nil => simp [sortByTsDesc]
  | cons e rest ih =>
    rw [sortByTsDesc, mem_insertByTsDesc]
    simp [ih]

/-- Each optional filter only removes entries. -/
theorem mem_applyFilter (key : String) (v : Option String) (l : List Json)
    (x : Json) : x ∈ applyFilter key v l → x ∈ l := by
  cases v with
  | none => exact fun h => h
  | some s =>
    intro h
    exact (List.mem_filter.mp h).1

/-- Every queried entry is a stored entry. -/
theorem mem_getLogs (filters : LogFilters) (logs : List Json) (x : Json) :
    x ∈ getLogs filters logs → x ∈ logs := by
  intro h
  unfold getLogs at h
  rw [mem_sortByTsDesc] at h
  exact mem_applyFilter _ _ _ _ (mem_applyFilter _ _ _ _
    (mem_applyFilter _ _ _ _ (mem_applyFilter _ _ _ _ h)))

/-- C8: after any `addLog`, (1) no stored entry is strictly older than the
cutoff, (2) hence no subsequent `getLogs` query — under any filters — can
return an entry strictly older than the cutoff computed at that append, and
(3) every entry at or newer than the cutoff (the previously stored ones and
the appended one) is retained. -/
theorem addLog_retention_contract :
    ∀ (entry : Json) (cutoff : String) (logs : List Json),
      (∀ x ∈ addLog entry cutoff logs, tsOlderThan x cutoff = false) ∧
      (∀ (filters : LogFilters) (x : Json),
        x ∈ getLogs filters (addLog entry cutoff logs) →
        tsOlderThan x cutoff = false) ∧
      (∀ x ∈ logs ++ [entry], tsOlderThan x cutoff = false →
        x ∈ addLog entry cutoff logs) := by
  intro entry cutoff logs
  refine ⟨?_, ?_, ?_⟩
  · intro x hx
    exact ((mem_pruneOld cutoff _ x).mp hx).2
  · intro filters x hx
    exact ((mem_pruneOld cutoff _ x).mp (mem_getLogs _ _ _ hx)).2
  · intro x hx hfresh
    exact (mem_pruneOld cutoff _ x).mpr ⟨hx, hfresh⟩

/-- A fresh log entry, newer than the retention cutoff of the fixtures. -/
def freshEntry : Json :=
  .obj [("timestamp", .str "2026-01-01T00:00:00.000Z")]

/-- A stale log entry, strictly older than the retention cutoff of the
fixtures. -/
def staleEntry : Json :=
  .obj [("timestamp", .str "2020-01-01T00:00:00.000Z")]

/-- Witness for C8: appending a fresh entry over a stale store keeps the
fresh entry and it is not older than the cutoff. -/
theorem addLog_retention_contract_witness :
    tsOlderThan freshEntry "2025-11-01T00:00:00.000Z" = false ∧
    freshEntry ∈ addLog freshEntry "2025-11-01T00:00:00.000Z" [staleEntry] :=
  ⟨(addLog_retention_contract freshEntry "2025-11-01T00:00:00.000Z"
      [staleEntry]).1 freshEntry
      (by rw [show addLog freshEntry "2025-11-01T00:00:00.000Z" [staleEntry] =
          [freshEntry] from rfl]; simp),
   (addLog_retention_contract freshEntry "2025-11-01T00:00:00.000Z"
      [staleEntry]).2.2 freshEntry (by simp) rfl⟩

/-! ## Stage lemmas about the pipeline -/

/-- A successful dispatch always answers 200. -/
theorem successOut_status {ctx : Ctx} {brand : Brand} {traceId action : String}
    {mode : Mode} {key : String} {result : Json} {notes : List String}
    {d : Nat} {cache : Cache} {logs : List Json} {events : List Event} :
    (successOut ctx brand traceId action mode key result notes d cache logs
      events).status = 200 := by
  cases mode <;> rfl

/-- A successful dispatch answers with the freshly minted trace id. -/
theorem successOut_respTraceId {ctx : Ctx} {brand : Brand}
    {traceId action : String} {mode : Mode} {key : String} {result : Json}
    {notes : List String} {d : Nat} {cache : Cache} {logs : List Json}
    {events : List Event} :
    (successOut ctx brand traceId action mode key result notes d cache logs
      events).resp.traceId = some traceId := by
  cases mode <;> rfl

/-- A dry-run success leaves the idempotency cache untouched. -/
theorem successOut_dryRun_cache {ctx : Ctx} {brand : Brand}
    {traceId action : String} {key : String} {result : Json}
    {notes : List String} {d : Nat} {cache : Cache} {logs : List Json}
    {events : List Event} :
    (successOut ctx brand traceId action .dry_run key result notes d cache
      logs events).cache = cache := rfl

/-- `Map.set` only adds the new binding. -/
theorem mem_cacheSet :
    ∀ (c : Cache) (key : String) (v : Response) (p : String × Response),
      p ∈ cacheSet c key v → p ∈ c ∨ p = (key, v) := by
  intro c key v
  induction c with
  | nil =>
    intro p hp
    right
    simpa [cacheSet] using hp
  | cons q rest ih =>
    intro p hp
    obtain ⟨k', v'⟩ := q
    rw [cacheSet] at hp
    by_cases h : (k' == key) = true
    · rw [if_pos h] at hp
      rcases List.mem_cons.mp hp with heq | hm
      · right
        exact heq
      · left
        exact List.mem_cons_of_mem _ hm
    · rw [if_neg h] at hp
      rcases List.mem_cons.mp hp with heq | hm
      · left
        rw [heq]
        exact List.mem_cons_self _ _
      · rcases ih p hm with h1 | h2
        · left
          exact List.mem_cons_of_mem _ h1
        · right
          exact h2

/-- A cache lookup hit is a stored binding. -/
theorem cacheGet_mem (c : Cache) (key : String) (r : Response)
    (h : cacheGet c key = some r) : ∃ k, (k, r) ∈ c := by
  unfold cacheGet at h
  cases hf : c.find? (fun p => p.1 == key) with
  | none =>
    rw [hf] at h
    cases h
  | some p =>
    rw [hf] at h
    injection h with h'
    refine ⟨p.1, ?_⟩
    have hm := List.mem_of_find?_eq_some hf
    rw [← h']
    simpa using hm

/-- A successful dispatch preserves the cache trace-id invariant: in
execute mode it stores a response carrying the fresh trace id, in dry-run
mode it stores nothing. -/
theorem successOut_cache_traceId {ctx : Ctx} {brand : Brand}
    {traceId action : String} {mode : Mode} {key : String} {result : Json}
    {notes : List String} {d : Nat} {cache : Cache} {logs : List Json}
    {events : List Event}
    (hinv : ∀ p ∈ cache, p.2.traceId.isSome = true) :
    ∀ p ∈ (successOut ctx brand traceId action mode key result notes d cache
      logs events).cache, p.2.traceId.isSome = true := by
  intro p hp
  cases mode with
  | dry_run => exact hinv p hp
  | execute =>
    rcases mem_cacheSet cache key _ p hp with h | h
    · exact hinv p h
    · rw [h]
      rfl

/-- Every `ok` outcome of the dispatch stage is a 200 dispatched through
`successOut`. -/
theorem dispatchStage_ok {ctx : Ctx} {brand : Brand}
    {traceId action : String} {mode : Mode} {params : Json} {key : String}
    {cache : Cache} {logs : List Json} {events : List Event} {out : PipeOut}
    (hinv : ∀ p ∈ cache, p.2.traceId.isSome = true)
    (h : dispatchStage ctx brand traceId action mode params key cache logs
      events = .ok out) :
    out.status = 200 ∧ out.resp.traceId = some traceId ∧
      (∀ p ∈ out.cache, p.2.traceId.isSome = true) := by
  unfold dispatchStage at h
  repeat' split at h
  all_goals first
    | exact Except.noConfusion h
    | (injection h with h'
       rw [← h']
       exact ⟨successOut_status, successOut_respTraceId,
         successOut_cache_traceId hinv⟩)

/-- A dry-run `ok` outcome of the dispatch stage leaves the cache
untouched. -/
theorem dispatchStage_dryRun_cache {ctx : Ctx} {brand : Brand}
    {traceId action : String} {params : Json} {key : String}
    {cache : Cache} {logs : List Json} {events : List Event} {out : PipeOut}
    (h : dispatchStage ctx brand traceId action .dry_run params key cache
      logs events = .ok out) : out.cache = cache := by
  unfold dispatchStage at h
  repeat' split at h
  all_goals first
    | exact Except.noConfusion h
    | (injection h with h'
       rw [← h']
       exact successOut_dryRun_cache)

/-- Every `ok` outcome of the idempotency gate is a 200 whose response
carries a trace identifier (the fresh one, or — on a cache hit — the stored
one), and the gate preserves the cache trace-id invariant. -/
theorem cacheGateStage_ok {ctx : Ctx} {brand : Brand}
    {traceId action : String} {mode : Mode} {params envelope : Json}
    {cache : Cache} {logs : List Json} {events : List Event} {out : PipeOut}
    (hinv : ∀ p ∈ cache, p.2.traceId.isSome = true)
    (h : cacheGateStage ctx brand traceId action mode params envelope cache
      logs events = .ok out) :
    out.status = 200 ∧ out.resp.traceId.isSome = true ∧
      (∀ p ∈ out.cache, p.2.traceId.isSome = true) := by
  unfold cacheGateStage at h
  split at h
  · split at h
    · injection h with h'
      rw [← h']
      rename_i cachedResult heq
      obtain ⟨k, hk⟩ := cacheGet_mem _ _ _ heq
      exact ⟨rfl, hinv (k, cachedResult) hk, hinv⟩
    · have hd := dispatchStage_ok hinv h
      exact ⟨hd.1, by rw [hd.2.1]; rfl, hd.2.2⟩
  · have hd := dispatchStage_ok hinv h
    exact ⟨hd.1, by rw [hd.2.1]; rfl, hd.2.2⟩

/-- Dry-run requests pass the idempotency gate without touching the
cache. -/
theorem cacheGateStage_dryRun_cache {ctx : Ctx} {brand : Brand}
    {traceId action : String} {params envelope : Json} {cache : Cache}
    {logs : List Json} {events : List Event} {out : PipeOut}
    (h : cacheGateStage ctx brand traceId action .dry_run params envelope
      cache logs events = .ok out) : out.cache = cache :=
  dispatchStage_dryRun_cache h

/-- Every `ok` outcome of the validated stages is either a 200 carrying a
trace identifier or a pre-dispatch rejection leaving the cache untouched;
either way the cache trace-id invariant is preserved. -/
theorem afterEnvelopeStage_ok {ctx : Ctx} {brand : Brand} {envelope : Json}
    {cache : Cache} {logs : List Json} {out : PipeOut}
    (hinv : ∀ p ∈ cache, p.2.traceId.isSome = true)
    (h : afterEnvelopeStage ctx brand envelope cache logs = .ok out) :
    ((out.status = 200 ∧ out.resp.traceId.isSome = true) ∨
      (out.status ≠ 200 ∧ out.status ≠ 500)) ∧
      (∀ p ∈ out.cache, p.2.traceId.isSome = true) := by
  unfold afterEnvelopeStage at h
  split at h
  · injection h with h'
    rw [← h']
    exact ⟨Or.inr ⟨by simp, by simp⟩, hinv⟩
  · split at h
    · injection h with h'
      rw [← h']
      exact ⟨Or.inr ⟨by simp, by simp⟩, hinv⟩
    · have hc := cacheGateStage_ok hinv h
      exact ⟨Or.inl ⟨hc.1, hc.2.1⟩, hc.2.2⟩

/-- Dry-run requests leave the cache untouched through the validated
stages. -/
theorem afterEnvelopeStage_dryRun_cache {ctx : Ctx} {brand : Brand}
    {envelope : Json} {cache : Cache} {logs : List Json} {out : PipeOut}
    (hmode : envMode envelope = Mode.dry_run)
    (h : afterEnvelopeStage ctx brand envelope cache logs = .ok out) :
    out.cache = cache := by
  unfold afterEnvelopeStage at h
  rw [hmode] at h
  split at h
  · injection h with h'
    rw [← h']
  · split at h
    · injection h with h'
      rw [← h']
    · exact cacheGateStage_dryRun_cache h

/-- Every `ok` outcome of the `try` body is either a 200 carrying a trace
identifier or a rejection leaving the cache untouched; the cache trace-id
invariant is preserved. -/
theorem runInner_ok {ctx : Ctx} {rawBody gatewayKey signature : String}
    {envelope : Json} {cache : Cache} {logs : List Json} {out : PipeOut}
    (hinv : ∀ p ∈ cache, p.2.traceId.isSome = true)
    (h : runInner ctx rawBody gatewayKey signature envelope cache logs =
      .ok out) :
    ((out.status = 200 ∧ out.resp.traceId.isSome = true) ∨
      (out.status ≠ 200 ∧ out.status ≠ 500)) ∧
      (∀ p ∈ out.cache, p.2.traceId.isSome = true) := by
  unfold runInner at h
  repeat' split at h
  all_goals first
    | exact Except.noConfusion h
    | (injection h with h'
       rw [← h']
       exact ⟨Or.inr ⟨by simp, by simp⟩, hinv⟩)
    | exact afterEnvelopeStage_ok hinv h

/-- Dry-run requests leave the cache untouched through the whole `try`
body. -/
theorem runInner_dryRun_cache {ctx : Ctx}
    {rawBody gatewayKey signature : String} {envelope : Json} {cache : Cache}
    {logs : List Json} {out : PipeOut}
    (hmode : envMode envelope = Mode.dry_run)
    (h : runInner ctx rawBody gatewayKey signature envelope cache logs =
      .ok out) : out.cache = cache := by
  unfold runInner at h
  repeat' split at h
  all_goals first
    | exact Except.noConfusion h
    | (injection h with h'
       rw [← h'])
    | exact afterEnvelopeStage_dryRun_cache hmode h

/-- The catch handler leaves the cache untouched. -/
theorem catchHandler_cache {ctx : Ctx} {cache : Cache} {logs : List Json}
    {t : Thrown} : (catchHandler ctx cache logs t).cache = cache := by
  unfold catchHandler
  split <;> rfl

/-- The catch handler answers 500. -/
theorem catchHandler_status {ctx : Ctx} {cache : Cache} {logs : List Json}
    {t : Thrown} : (catchHandler ctx cache logs t).status = 500 := by
  unfold catchHandler
  split <;> rfl

/-- The catch handler always answers with a trace identifier. -/
theorem catchHandler_traceId {ctx : Ctx} {cache : Cache} {logs : List Json}
    {t : Thrown} :
    (catchHandler ctx cache logs t).resp.traceId.isSome = true := by
  unfold catchHandler
  split <;> rfl

/-- Every response with status 200 or 500 carries a trace identifier, and
the pipeline preserves the cache trace-id invariant. -/
theorem executePipeline_ok500_traceId (ctx : Ctx)
    (rawBody gatewayKey signature : String) (envelope : Json) (cache : Cache)
    (logs : List Json)
    (hinv : ∀ p ∈ cache, p.2.traceId.isSome = true) :
    (((executePipeline ctx rawBody gatewayKey signature envelope cache
        logs).status = 200 ∨
      (executePipeline ctx rawBody gatewayKey signature envelope cache
        logs).status = 500) →
      (executePipeline ctx rawBody gatewayKey signature envelope cache
        logs).resp.traceId.isSome = true) ∧
    (∀ p ∈ (executePipeline ctx rawBody gatewayKey signature envelope cache
      logs).cache, p.2.traceId.isSome = true) := by
  unfold executePipeline
  cases hr : runInner ctx rawBody gatewayKey signature envelope cache logs with
  | ok out =>
    have h := runInner_ok hinv hr
    refine ⟨?_, h.2⟩
    intro hst
    rcases h.1 with ⟨_, hts⟩ | ⟨hn200, hn500⟩
    · exact hts
    · rcases hst with h2 | h2
      · exact absurd h2 hn200
      · exact absurd h2 hn500
  | error t =>
    refine ⟨fun _ => catchHandler_traceId, ?_⟩
    intro p hp
    rw [catchHandler_cache] at hp
    exact hinv p hp

/-- Every `ok` outcome of the dispatch stage answers 200. -/
theorem dispatchStage_ok_status {ctx : Ctx} {brand : Brand}
    {traceId action : String} {mode : Mode} {params : Json} {key : String}
    {cache : Cache} {logs : List Json} {events : List Event} {out : PipeOut}
    (h : dispatchStage ctx brand traceId action mode params key cache logs
      events = .ok out) : out.status = 200 := by
  unfold dispatchStage at h
  repeat' split at h
  all_goals first
    | exact Except.noConfusion h
    | (injection h with h'
       rw [← h']
       exact successOut_status)

/-- Every `ok` outcome of the idempotency gate answers 200. -/
theorem cacheGateStage_ok_status {ctx : Ctx} {brand : Brand}
    {traceId action : String} {mode : Mode} {params envelope : Json}
    {cache : Cache} {logs : List Json} {events : List Event} {out : PipeOut}
    (h : cacheGateStage ctx brand traceId action mode params envelope cache
      logs events = .ok out) : out.status = 200 := by
  unfold cacheGateStage at h
  split at h
  · split at h
    · injection h with h'
      rw [← h']
    · exact dispatchStage_ok_status h
  · exact dispatchStage_ok_status h

/-- An `ok` outcome of the validated stages either answers 200 or left the
cache untouched. -/
theorem afterEnvelopeStage_ok_cache {ctx : Ctx} {brand : Brand}
    {envelope : Json} {cache : Cache} {logs : List Json} {out : PipeOut}
    (h : afterEnvelopeStage ctx brand envelope cache logs = .ok out) :
    out.status = 200 ∨ out.cache = cache := by
  unfold afterEnvelopeStage at h
  split at h
  · injection h with h'
    rw [← h']
    exact Or.inr rfl
  · split at h
    · injection h with h'
      rw [← h']
      exact Or.inr rfl
    · exact Or.inl (cacheGateStage_ok_status h)

/-- An `ok` outcome of the `try` body either answers 200 or left the cache
untouched. -/
theorem runInner_ok_cache {ctx : Ctx} {rawBody gatewayKey signature : String}
    {envelope : Json} {cache : Cache} {logs : List Json} {out : PipeOut}
    (h : runInner ctx rawBody gatewayKey signature envelope cache logs =
      .ok out) : out.status = 200 ∨ out.cache = cache := by
  unfold runInner at h
  repeat' split at h
  all_goals first
    | exact Except.noConfusion h
    | (injection h with h'
       rw [← h']
       exact Or.inr rfl)
    | exact afterEnvelopeStage_ok_cache h

/-- A non-200 response leaves the idempotency cache exactly as it was. -/
theorem executePipeline_cache_of_not200 (ctx : Ctx)
    (rawBody gatewayKey signature : String) (envelope : Json) (cache : Cache)
    (logs : List Json)
    (h : (executePipeline ctx rawBody gatewayKey signature envelope cache
      logs).status ≠ 200) :
    (executePipeline ctx rawBody gatewayKey signature envelope cache
      logs).cache = cache := by
  unfold executePipeline at h ⊢
  cases hr : runInner ctx rawBody gatewayKey signature envelope cache logs with
  | ok out =>
    rw [hr] at h
    rcases runInner_ok_cache hr with h200 | hc
    · exact absurd h200 h
    · exact hc
  | error t =>
    exact catchHandler_cache

/-- A dry-run request leaves the idempotency cache exactly as it was. -/
theorem executePipeline_dryRun_cache (ctx : Ctx)
    (rawBody gatewayKey signature : String) (envelope : Json) (cache : Cache)
    (logs : List Json) (hmode : envMode envelope = Mode.dry_run) :
    (executePipeline ctx rawBody gatewayKey signature envelope cache
      logs).cache = cache := by
  unfold executePipeline
  cases hr : runInner ctx rawBody gatewayKey signature envelope cache logs with
  | ok out =>
    exact runInner_dryRun_cache hmode hr
  | error t =>
    exact catchHandler_cache

/-- An execute-mode cache hit short-circuits the idempotency gate with the
stored response. -/
theorem cacheGateStage_hit (ctx : Ctx) (brand : Brand)
    (traceId action : String) (params envelope : Json) (cache : Cache)
    (logs : List Json) (events : List Event) (r : Response)
    (h : cacheGet cache (compositeKey action brand envelope) = some r) :
    cacheGateStage ctx brand traceId action .execute params envelope cache
      logs events =
      .ok { status := 200, resp := r, cache := cache, logs := logs,
            events := (events ++
                [Event.cacheChecked (compositeKey action brand envelope)]) ++
              [Event.cacheHit (compositeKey action brand envelope)] } := by
  simp only [cacheGateStage]
  rw [h]

/-- The Pave query `{jobs: {size: n}}` with `n > 100` lints to exactly the
page-size violation. -/
theorem lint_sizeExceeded (n : Int) (h : 100 < n) :
    lintJobTreadQuery (.obj [("jobs", .obj [("size", .num n)])]) =
      { valid := false, notes := [], errors := [sizeErrMsg "jobs" n] } := by
  simp [lintJobTreadQuery, checkObject, checkEntries, lintNodeRules,
    childPath, getField, hasKey, strIncludes, listContainsSub, h]

/-- `executeJobTreadQuery` throws the lint failure for an oversized page
before any mode dispatch or downstream call. -/
theorem executeJobTreadQuery_sizeExceeded (n : Int) (h : 100 < n)
    (grantKey : String) (mode : Mode) (http : Except String HttpResponse) :
    executeJobTreadQuery
        (.obj [("pave", .obj [("jobs", .obj [("size", .num n)])])]) grantKey
        mode http =
      .error ("JobTread query validation failed:\n" ++ sizeErrMsg "jobs" n) := by
  have hl := lint_sizeExceeded n h
  simp only [executeJobTreadQuery,
    show (getField (Json.obj [("pave",
        Json.obj [("jobs", Json.obj [("size", Json.num n)])])])
      "pave").getD Json.null =
      Json.obj [("jobs", Json.obj [("size", Json.num n)])] from rfl, hl]
  simp [joinSep]

end Gateway

namespace Gateway

/-! ## C5 — no idempotency record on executor failure -/

/-- C5: an idempotency record is created only on a successful (200)
execute-mode completion. Any outcome other than 200 — in particular every
thrown executor failure, which the catch handler turns into a 500 — leaves
the cache exactly as it was; concretely, an execute-mode push whose
downstream transport fails with any error `e` answers 500, stores nothing,
and an identical later request invokes the executor again. -/
theorem idempotency_no_record_on_error :
    (∀ (ctx : Ctx) (rawBody gatewayKey signature : String) (envelope : Json)
        (cache : Cache) (logs : List Json),
      (executePipeline ctx rawBody gatewayKey signature envelope cache
        logs).status ≠ 200 →
      (executePipeline ctx rawBody gatewayKey signature envelope cache
        logs).cache = cache) ∧
    (∀ e : String,
      (executePipeline (failCtx e) "body" "gkDB" "sha256=00ff" pushEnvelope
        [] []).status = 500 ∧
      (executePipeline (failCtx e) "body" "gkDB" "sha256=00ff" pushEnvelope
        [] []).cache = [] ∧
      Event.executorInvoked "jobtread.pushJobToQbo" ∈
        (executePipeline (failCtx e) "body" "gkDB" "sha256=00ff" pushEnvelope
          [] []).events ∧
      Event.executorInvoked "jobtread.pushJobToQbo" ∈
        (executePipeline (failCtx e) "body" "gkDB" "sha256=00ff" pushEnvelope
          (executePipeline (failCtx e) "body" "gkDB" "sha256=00ff"
            pushEnvelope [] []).cache
          (executePipeline (failCtx e) "body" "gkDB" "sha256=00ff"
            pushEnvelope [] []).logs).events) := by
  refine ⟨executePipeline_cache_of_not200, ?_⟩
  intro e
  refine ⟨rfl, rfl, ?_, ?_⟩
  · rw [show (executePipeline (failCtx e) "body" "gkDB" "sha256=00ff"
        pushEnvelope [] []).events =
      [Event.paramsValidated "jobtread.pushJobToQbo",
       Event.cacheChecked "jobtread.pushJobToQbo:DB:k1",
       Event.executorInvoked "jobtread.pushJobToQbo",
       Event.logAppended] from rfl]
    decide
  · rw [show (executePipeline (failCtx e) "body" "gkDB" "sha256=00ff"
        pushEnvelope
        (executePipeline (failCtx e) "body" "gkDB" "sha256=00ff" pushEnvelope
          [] []).cache
        (executePipeline (failCtx e) "body" "gkDB" "sha256=00ff" pushEnvelope
          [] []).logs).events =
      [Event.paramsValidated "jobtread.pushJobToQbo",
       Event.cacheChecked "jobtread.pushJobToQbo:DB:k1",
       Event.executorInvoked "jobtread.pushJobToQbo",
       Event.logAppended] from rfl]
    decide

/-- Witness for C5's general component: a rejected request (missing body,
status 400) leaves a populated cache untouched. -/
theorem idempotency_no_record_on_error_witness :
    (executePipeline stdCtx "" "gkDB" "sha256=00ff" pushEnvelope hitCache
      []).cache = hitCache :=
  idempotency_no_record_on_error.1 stdCtx "" "gkDB" "sha256=00ff"
    pushEnvelope hitCache [] (by decide)

/-! ## C6 — dry runs bypass the idempotency cache -/

/-- C6: a dry-run request neither consults nor populates the idempotency
cache: the cache is unchanged after any dry-run request, and a dry-run
request whose composite key is already cached from a prior execute is
recomputed — the executor runs, no cache check is observed, and the fresh
dry-run result (not the stored response) is returned. -/
theorem dry_run_bypasses_cache :
    (∀ (ctx : Ctx) (rawBody gatewayKey signature : String) (envelope : Json)
        (cache : Cache) (logs : List Json),
      envMode envelope = Mode.dry_run →
      (executePipeline ctx rawBody gatewayKey signature envelope cache
        logs).cache = cache) ∧
    (∀ (c : Cache) (r : Response),
      cacheGet c "jobtread.pushJobToQbo:DB:k1" = some r →
      (executePipeline stdCtx "body" "gkDB" "sha256=00ff" pushEnvelopeDry c
        []).resp.result = some (.str
        "Dry run: Would push job 12345 to QuickBooks Online via JobTread API.") ∧
      Event.executorInvoked "jobtread.pushJobToQbo" ∈
        (executePipeline stdCtx "body" "gkDB" "sha256=00ff" pushEnvelopeDry c
          []).events ∧
      (∀ k, Event.cacheChecked k ∉
        (executePipeline stdCtx "body" "gkDB" "sha256=00ff" pushEnvelopeDry c
          []).events) ∧
      (executePipeline stdCtx "body" "gkDB" "sha256=00ff" pushEnvelopeDry c
        []).cache = c) := by
  refine ⟨fun ctx rawBody gatewayKey signature envelope cache logs hmode =>
    executePipeline_dryRun_cache ctx rawBody gatewayKey signature envelope
      cache logs hmode, ?_⟩
  intro c r _
  have hev : (executePipeline stdCtx "body" "gkDB" "sha256=00ff"
      pushEnvelopeDry c []).events =
      [Event.paramsValidated "jobtread.pushJobToQbo",
       Event.executorInvoked "jobtread.pushJobToQbo",
       Event.logAppended] := rfl
  refine ⟨rfl, ?_, ?_, rfl⟩
  · rw [hev]
    decide
  · intro k
    rw [hev]
    simp

/-- Witness for C6 at a populated cache: the dry run leaves the stored
binding alone and answers with the freshly computed dry-run message. -/
theorem dry_run_bypasses_cache_witness :
    (executePipeline stdCtx "body" "gkDB" "sha256=00ff" pushEnvelopeDry
      hitCache []).cache = hitCache ∧
    (executePipeline stdCtx "body" "gkDB" "sha256=00ff" pushEnvelopeDry
      hitCache []).resp.result = some (.str
      "Dry run: Would push job 12345 to QuickBooks Online via JobTread API.") :=
  ⟨dry_run_bypasses_cache.1 stdCtx "body" "gkDB" "sha256=00ff"
      pushEnvelopeDry hitCache [] rfl,
   (dry_run_bypasses_cache.2 hitCache cachedResp rfl).1⟩

/-! ## C4 — trace identifiers on responses -/

/-- C4, counterexample: the missing-body rejection (status 400) carries no
trace identifier, so not every response carries one. -/
theorem missing_body_response_has_no_traceId :
    (executePipeline stdCtx "" "gkDB" "sha256=00ff" pushEnvelope [] []).status
      = 400 ∧
    (executePipeline stdCtx "" "gkDB" "sha256=00ff" pushEnvelope []
      []).resp.traceId = none :=
  ⟨rfl, rfl⟩

/-- C4, amended: every success (200) response and every catch-handler (500)
response carries a trace identifier — the 500 path mints one when the
failure occurred before trace-id assignment — provided every cached
response carries one, an invariant the pipeline itself preserves; the
rejections produced before trace-id assignment (400 missing body, 401
missing/invalid credential or signature, 422 envelope validation failure)
carry none. -/
theorem trace_identifier_amended :
    (∀ (ctx : Ctx) (rawBody gatewayKey signature : String) (envelope : Json)
        (cache : Cache) (logs : List Json),
      (∀ p ∈ cache, p.2.traceId.isSome = true) →
      ((((executePipeline ctx rawBody gatewayKey signature envelope cache
          logs).status = 200 ∨
        (executePipeline ctx rawBody gatewayKey signature envelope cache
          logs).status = 500) →
        (executePipeline ctx rawBody gatewayKey signature envelope cache
          logs).resp.traceId.isSome = true) ∧
       (∀ p ∈ (executePipeline ctx rawBody gatewayKey signature envelope
          cache logs).cache, p.2.traceId.isSome = true))) ∧
    (executePipeline stdCtx "" "gkDB" "sha256=00ff" pushEnvelope [] []).status
      = 400 ∧
    (executePipeline stdCtx "" "gkDB" "sha256=00ff" pushEnvelope []
      []).resp.traceId = none ∧
    (executePipeline stdCtx "body" "gkDB" "bad" pushEnvelope [] []).status
      = 401 ∧
    (executePipeline stdCtx "body" "gkDB" "bad" pushEnvelope []
      []).resp.traceId = none ∧
    (executePipeline stdCtx "body" "gkDB" "sha256=00ff" (Json.str "oops") []
      []).status = 422 ∧
    (executePipeline stdCtx "body" "gkDB" "sha256=00ff" (Json.str "oops") []
      []).resp.traceId = none :=
  ⟨executePipeline_ok500_traceId, rfl, rfl, rfl, rfl, rfl, rfl⟩

/-- Witness for C4's amended component: a 500 from a downstream failure
carries a trace identifier. -/
theorem trace_identifier_amended_witness :
    (executePipeline stdCtx "body" "gkDB" "sha256=00ff" pushEnvelope []
      []).resp.traceId.isSome = true :=
  (trace_identifier_amended.1 stdCtx "body" "gkDB" "sha256=00ff"
    pushEnvelope [] [] (by simp)).1 (Or.inr rfl)

end Gateway

namespace Gateway

/-! ## C1 — idempotent replay -/

/-- C1, counterexample: on an execute-mode request whose composite key is
already cached, the pipeline does return the stored response verbatim — but
only after re-running the action params validator, as the recorded
`paramsValidated` event shows; the claim's "without re-validating the
action params" is false. -/
theorem idempotent_hit_revalidates_params :
    (executePipeline stdCtx "body" "gkDB" "sha256=00ff" pushEnvelope hitCache
      []).resp = cachedResp ∧
    (executePipeline stdCtx "body" "gkDB" "sha256=00ff" pushEnvelope hitCache
      []).status = 200 ∧
    Event.paramsValidated "jobtread.pushJobToQbo" ∈
      (executePipeline stdCtx "body" "gkDB" "sha256=00ff" pushEnvelope
        hitCache []).events := by
  refine ⟨rfl, rfl, ?_⟩
  rw [show (executePipeline stdCtx "body" "gkDB" "sha256=00ff" pushEnvelope
      hitCache []).events =
    [Event.paramsValidated "jobtread.pushJobToQbo",
     Event.cacheChecked "jobtread.pushJobToQbo:DB:k1",
     Event.cacheHit "jobtread.pushJobToQbo:DB:k1"] from rfl]
  decide

/-- C1, amended: for every execute-mode request that passes authentication
and validation and whose composite key has a stored response, the pipeline
returns that stored response verbatim (same trace identifier, result and
notes, being the same `Response` value) with status 200, re-invokes no
executor, makes no downstream call, appends no log entry and leaves the
cache unchanged — but the action params validator does run again before the
cache lookup. -/
theorem idempotent_hit_returns_stored :
    ∀ (k : String) (c : Cache) (r : Response),
      cacheGet c ("jobtread.pushJobToQbo:DB:" ++ k) = some r →
      ((executePipeline stdCtx "body" "gkDB" "sha256=00ff" (pushEnvelopeK k)
          c []).status = 200 ∧
       (executePipeline stdCtx "body" "gkDB" "sha256=00ff" (pushEnvelopeK k)
          c []).resp = r) ∧
      (executePipeline stdCtx "body" "gkDB" "sha256=00ff" (pushEnvelopeK k)
        c []).cache = c ∧
      (executePipeline stdCtx "body" "gkDB" "sha256=00ff" (pushEnvelopeK k)
        c []).logs = [] ∧
      (∀ a, Event.executorInvoked a ∉
        (executePipeline stdCtx "body" "gkDB" "sha256=00ff" (pushEnvelopeK k)
          c []).events) ∧
      Event.downstreamCall ∉
        (executePipeline stdCtx "body" "gkDB" "sha256=00ff" (pushEnvelopeK k)
          c []).events ∧
      Event.paramsValidated "jobtread.pushJobToQbo" ∈
        (executePipeline stdCtx "body" "gkDB" "sha256=00ff" (pushEnvelopeK k)
          c []).events := by
  intro k c r h
  have hkey : cacheGet c
      (compositeKey "jobtread.pushJobToQbo" Brand.DB (pushEnvelopeK k)) =
      some r := h
  have h2 := cacheGateStage_hit stdCtx Brand.DB "trace-1"
    "jobtread.pushJobToQbo" (Json.obj [("jobId", Json.str "12345")])
    (pushEnvelopeK k) c [] [Event.paramsValidated "jobtread.pushJobToQbo"] r
    hkey
  have h1 : executePipeline stdCtx "body" "gkDB" "sha256=00ff"
      (pushEnvelopeK k) c [] =
      (match cacheGateStage stdCtx Brand.DB "trace-1" "jobtread.pushJobToQbo"
          Mode.execute (Json.obj [("jobId", Json.str "12345")])
          (pushEnvelopeK k) c []
          [Event.paramsValidated "jobtread.pushJobToQbo"] with
       | .ok out => out
       | .error t => catchHandler stdCtx c [] t) := rfl
  rw [h1, h2]
  refine ⟨⟨rfl, rfl⟩, rfl, rfl, ?_, ?_, ?_⟩
  · intro a
    simp
  · simp
  · simp

/-- Witness for C1's amended theorem at the fixture cache. -/
theorem idempotent_hit_returns_stored_witness :
    (executePipeline stdCtx "body" "gkDB" "sha256=00ff" (pushEnvelopeK "k1")
      hitCache []).status = 200 ∧
    (executePipeline stdCtx "body" "gkDB" "sha256=00ff" (pushEnvelopeK "k1")
      hitCache []).resp = cachedResp :=
  (idempotent_hit_returns_stored "k1" hitCache cachedResp rfl).1

/-! ## C3 — oversized page size on a query action -/

/-- C3, counterexample: the envelope passes schema validation, names
`jobtread.query` and carries `params.pave` with `size = 150`, yet the
pipeline answers 500 — not 422 — because the lint failure is thrown by the
executor and lands in the generic catch handler; the violation text appears
in the error message, not in a 422 details list. -/
theorem query_oversize_answers_500_not_422 :
    (executePipeline stdCtx "body" "gkDB" "sha256=00ff" (queryEnvelope 150)
      [] []).status = 500 ∧
    ((executePipeline stdCtx "body" "gkDB" "sha256=00ff" (queryEnvelope 150)
      [] []).status = 422 → False) ∧
    (executePipeline stdCtx "body" "gkDB" "sha256=00ff" (queryEnvelope 150)
      [] []).resp.error = some
      "JobTread query validation failed:\nPage size limit exceeded: jobs.size = 150. Maximum allowed is 100. Please use pagination for larger result sets." := by
  refine ⟨rfl, ?_, rfl⟩
  intro hx
  rw [show (executePipeline stdCtx "body" "gkDB" "sha256=00ff"
      (queryEnvelope 150) [] []).status = 500 from rfl] at hx
  exact absurd hx (by decide)

/-- C3, amended: for every valid `jobtread.query` request whose `pave`
carries a numeric `size` greater than 100, the pipeline answers status 500
and the error message lists the page-size violation. -/
theorem query_oversize_rejected_with_violation :
    ∀ n : Int, 100 < n →
      (executePipeline stdCtx "body" "gkDB" "sha256=00ff" (queryEnvelope n)
        [] []).status = 500 ∧
      (executePipeline stdCtx "body" "gkDB" "sha256=00ff" (queryEnvelope n)
        [] []).resp.error = some
        ("JobTread query validation failed:\n" ++ sizeErrMsg "jobs" n) := by
  intro n h
  have hexec := executeJobTreadQuery_sizeExceeded n h "grantDB" Mode.dry_run
    stdCtx.http
  have h2 : dispatchStage stdCtx Brand.DB "trace-1" "jobtread.query"
      Mode.dry_run
      (Json.obj [("pave", Json.obj [("jobs", Json.obj [("size", Json.num n)])])])
      "jobtread.query:DB:k1" [] [] [Event.paramsValidated "jobtread.query"] =
      .error ⟨"JobTread query validation failed:\n" ++ sizeErrMsg "jobs" n,
        some "trace-1", some Brand.DB, some "jobtread.query",
        some Mode.dry_run,
        [Event.paramsValidated "jobtread.query",
         Event.executorInvoked "jobtread.query"]⟩ := by
    unfold dispatchStage
    rw [show grantKeyStage stdCtx Brand.DB "trace-1" "jobtread.query"
        Mode.dry_run [Event.paramsValidated "jobtread.query"] =
      Except.ok (some "grantDB") from rfl]
    split
    next t heq => exact Except.noConfusion heq
    next gk heq =>
      injection heq with heq'
      subst heq'
      simp [hexec]
  have h1 : executePipeline stdCtx "body" "gkDB" "sha256=00ff"
      (queryEnvelope n) [] [] =
      (match dispatchStage stdCtx Brand.DB "trace-1" "jobtread.query"
          Mode.dry_run
          (Json.obj [("pave", Json.obj [("jobs", Json.obj [("size", Json.num n)])])])
          "jobtread.query:DB:k1" [] []
          [Event.paramsValidated "jobtread.query"] with
       | .ok out => out
       | .error t => catchHandler stdCtx [] [] t) := rfl
  rw [h1, h2]
  exact ⟨rfl, rfl⟩

/-- Witness for C3's amended theorem at size 150. -/
theorem query_oversize_rejected_with_violation_witness :
    (executePipeline stdCtx "body" "gkDB" "sha256=00ff" (queryEnvelope 150)
      [] []).resp.error = some
      ("JobTread query validation failed:\n" ++ sizeErrMsg "jobs" 150) :=
  (query_oversize_rejected_with_violation 150 (by decide)).2

end Gateway
